import Mathlib

/-!
Verification of the OpenNSA core against its natural-language specification.

The definitions below are a shallow embedding of the Python sources:
  * `opennsa/connection.py`  — connection state machine, sub-connections and
    the aggregating connection;
  * `opennsa/nsa.py`         — label algebra (parse / normalize / intersect),
    STP, Link, Path data model;
  * `opennsa/protocols/nsi2/requesterservice.py` — requester callback surface;
  * `opennsa/protocols/nsi2/bindings/p2pservices.py` — generated XML bindings.

Machine integers are modelled as `Nat`/`Int` (Python integers are unbounded,
and every label value the textual parser can produce is non-negative, see
the comments at `Token`).  Fallible Python code (raised exceptions) is
modelled with `Except`.
-/

namespace OpenNSA

/-- Python exceptions raised by the modelled code, by kind, with the message
where the message matters to a claim. -/
inductive NsiError where
  | connectionStateTransitionError (msg : String)
  | reserveError (msg : String)
  | cancelReservationError (msg : String)
  | provisionError (msg : String)
  | releaseError (msg : String)
  | payloadError (msg : String)
  | emptyLabelSet (msg : String)
  | assertionError (msg : String)
  | typeError (msg : String)
  | valueError (msg : String)
  | notImplementedError (msg : String)
  | indexError (msg : String)
  | stopIteration
  deriving DecidableEq, Repr

/-- View of `Except` as a sum, used to derive decidable equality. -/
def exceptToSum {ε α : Type} : Except ε α → ε ⊕ α
  | .error e => .inl e
  | .ok a => .inr a

instance {ε α : Type} [DecidableEq ε] [DecidableEq α] : DecidableEq (Except ε α) := fun a b =>
  decidable_of_iff (exceptToSum a = exceptToSum b)
    (by cases a <;> cases b <;> simp [exceptToSum])

/-! ## Connection state machine (`opennsa/connection.py`, lines 16-60) -/

/-- The nine connection states of `connection.py` (module level constants
`INITIAL` .. `TERMINATED`). -/
inductive CState where
  | initial
  | reserving
  | reserved
  | autoProvision
  | provisioning
  | provisioned
  | releasing
  | terminating
  | terminated
  deriving DecidableEq, Repr

open CState

/-- The textual state names of `connection.py`; the source spells the
terminating state `'Terminateing'` (see the comment `# John can't spell`). -/
def stateName : CState → String
  | .initial => "Initial"
  | .reserving => "Reserving"
  | .reserved => "Reserved"
  | .autoProvision => "Auto-Provision"
  | .provisioning => "Provisioning"
  | .provisioned => "Provisioned"
  | .releasing => "Releasing"
  | .terminating => "Terminateing"
  | .terminated => "Terminated"

/-- The `TRANSITIONS` table of `connection.py` (lines 32-42). -/
def TRANSITIONS : CState → List CState
  | .initial => [reserving]
  | .reserving => [reserved, terminated]
  | .reserved => [autoProvision, provisioning, terminating]
  | .autoProvision => [provisioning, terminated]
  | .provisioning => [provisioned, terminated]
  | .provisioned => [releasing, terminating]
  | .releasing => [reserved, terminated]
  | .terminating => [terminated]
  | .terminated => []

/-- `ConnectionState.switchState` (`connection.py`, lines 56-60): move to
`new_state` when the transition table allows it, otherwise raise
`ConnectionStateTransitionError` and leave the state unchanged.  The returned
value is the new state. -/
def switchState (s new_state : CState) : Except NsiError CState :=
  if new_state ∈ TRANSITIONS s then
    .ok new_state
  else
    .error (.connectionStateTransitionError
      ("Transition from state " ++ stateName s ++ " to " ++ stateName new_state ++ " not allowed"))

/-- Transition-table row given by the specification, §4.1 (written from the
spec's words, to be compared against the source's `TRANSITIONS`). -/
def specAllowed : CState → CState → Bool
  | .initial, t => t = reserving
  | .reserving, t => t = reserved ∨ t = terminated
  | .reserved, t => t = autoProvision ∨ t = provisioning ∨ t = terminating
  | .autoProvision, t => t = provisioning ∨ t = terminated
  | .provisioning, t => t = provisioned ∨ t = terminated
  | .provisioned, t => t = releasing ∨ t = terminating
  | .releasing, t => t = reserved ∨ t = terminated
  | .terminating, t => t = terminated
  | .terminated, _ => false

/-- Is an `Except` result a raised `ConnectionStateTransitionError`? -/
def isStateTransitionError : Except NsiError CState → Bool
  | .error (.connectionStateTransitionError _) => true
  | _ => false

instance : Fintype CState :=
  ⟨⟨{initial, reserving, reserved, autoProvision, provisioning, provisioned,
     releasing, terminating, terminated}, by decide⟩, by intro x; cases x <;> decide⟩

/-- C2: `switchState` succeeds (moving to exactly the requested state) when
the requested state appears in the spec's transition-table row for the current
state, and otherwise raises `ConnectionStateTransitionError`, leaving the
state unchanged (the caller's state field is only overwritten with the `ok`
result). -/
theorem switchState_matches_spec_table :
    ∀ s t : CState,
      (specAllowed s t = true → switchState s t = .ok t) ∧
      (specAllowed s t = false → isStateTransitionError (switchState s t) = true) := by
  decide

/-! ## Sub-connections and the aggregating connection
(`opennsa/connection.py`, lines 64-386)

The Python code drives each operation through Twisted deferreds: the
operation first calls `switchState`, then issues the backend/proxy call and
registers a pair of callbacks for its outcome.  The embedding passes the
outcome of the downstream call explicitly (`OpOutcome`) and runs the
callback chain sequentially, returning the updated record together with the
deferred's final result. -/

/-- Outcome of one downstream backend/proxy call: the value handed to the
success callback (an id string, where one is returned) or the failure with
its `getErrorMessage()` text. -/
inductive OpOutcome where
  | success (val : String)
  | failure (msg : String)
  deriving DecidableEq, Repr

/-- `SubConnection` (`connection.py`, lines 64-152): remote sub-connection,
holding its own `ConnectionState`.  The proxy reference is modelled by the
explicit `OpOutcome` arguments of the operations. -/
structure SubConnection where
  connection_id : String
  network : String
  source_stp : String
  dest_stp : String
  state : CState
  deriving DecidableEq, Repr

/-- `SubConnection.reservation`: switch to `RESERVING` (an illegal transition
raises synchronously, before anything is sent downstream), then the proxy's
deferred fires: success switches to `RESERVED`, failure to `TERMINATED` and
the failure is passed through. -/
def SubConnection.reservation (sc : SubConnection) (oc : OpOutcome) :
    SubConnection × Except NsiError Unit :=
  match switchState sc.state .reserving with
  | .error e => (sc, .error e)
  | .ok _ =>
    match oc with
    | .success _ => ({ sc with state := .reserved }, .ok ())
    | .failure m => ({ sc with state := .terminated }, .error (.reserveError m))

/-- `SubConnection.cancelReservation`: switch to `TERMINATING`; both the
success and the failure callback switch to `TERMINATED` (the failure is
passed through). -/
def SubConnection.cancelReservation (sc : SubConnection) (oc : OpOutcome) :
    SubConnection × Except NsiError Unit :=
  match switchState sc.state .terminating with
  | .error e => (sc, .error e)
  | .ok _ =>
    match oc with
    | .success _ => ({ sc with state := .terminated }, .ok ())
    | .failure m => ({ sc with state := .terminated }, .error (.cancelReservationError m))

/-- `SubConnection.provision`: switch to `PROVISIONING`; on success the
callback asserts the returned connection id equals the one issued and
switches to `PROVISIONED`; on failure it switches to `TERMINATED`. -/
def SubConnection.provision (sc : SubConnection) (oc : OpOutcome) :
    SubConnection × Except NsiError Unit :=
  match switchState sc.state .provisioning with
  | .error e => (sc, .error e)
  | .ok s =>
    match oc with
    | .success conn_id =>
      if conn_id = sc.connection_id then
        ({ sc with state := .provisioned }, .ok ())
      else
        ({ sc with state := s }, .error (.assertionError "conn_id == self.connection_id"))
    | .failure m => ({ sc with state := .terminated }, .error (.provisionError m))

/-- `SubConnection.releaseProvision`: switch to `RELEASING`; success asserts
the returned id and switches to `RESERVED`; failure switches to
`TERMINATED`. -/
def SubConnection.releaseProvision (sc : SubConnection) (oc : OpOutcome) :
    SubConnection × Except NsiError Unit :=
  match switchState sc.state .releasing with
  | .error e => (sc, .error e)
  | .ok s =>
    match oc with
    | .success conn_id =>
      if conn_id = sc.connection_id then
        ({ sc with state := .reserved }, .ok ())
      else
        ({ sc with state := s }, .error (.assertionError "conn_id == self.connection_id"))
    | .failure m => ({ sc with state := .terminated }, .error (.releaseError m))

/-- `LocalConnection` (`connection.py`, lines 156-244): the backend-driven
sub-connection, with its internal reservation/connection ids. -/
structure LocalConnection where
  source_endpoint : String
  dest_endpoint : String
  internal_reservation_id : Option String
  internal_connection_id : Option String
  state : CState
  deriving DecidableEq, Repr

/-- `LocalConnection.reservation`: switch to `RESERVING`; success records the
internal reservation id and switches to `RESERVED`; failure switches to
`TERMINATED`. -/
def LocalConnection.reservation (lc : LocalConnection) (oc : OpOutcome) :
    LocalConnection × Except NsiError Unit :=
  match switchState lc.state .reserving with
  | .error e => (lc, .error e)
  | .ok _ =>
    match oc with
    | .success int_res_id =>
      ({ lc with internal_reservation_id := some int_res_id, state := .reserved }, .ok ())
    | .failure m => ({ lc with state := .terminated }, .error (.reserveError m))

/-- `LocalConnection.cancelReservation`. -/
def LocalConnection.cancelReservation (lc : LocalConnection) (oc : OpOutcome) :
    LocalConnection × Except NsiError Unit :=
  match switchState lc.state .terminating with
  | .error e => (lc, .error e)
  | .ok _ =>
    match oc with
    | .success _ => ({ lc with state := .terminated }, .ok ())
    | .failure m => ({ lc with state := .terminated }, .error (.cancelReservationError m))

/-- `LocalConnection.provision`: success records the internal connection id
and switches to `PROVISIONED`. -/
def LocalConnection.provision (lc : LocalConnection) (oc : OpOutcome) :
    LocalConnection × Except NsiError Unit :=
  match switchState lc.state .provisioning with
  | .error e => (lc, .error e)
  | .ok _ =>
    match oc with
    | .success int_conn_id =>
      ({ lc with internal_connection_id := some int_conn_id, state := .provisioned }, .ok ())
    | .failure m => ({ lc with state := .terminated }, .error (.provisionError m))

/-- `LocalConnection.releaseProvision`: success records the returned internal
reservation id, clears the internal connection id and switches back to
`RESERVED`. -/
def LocalConnection.releaseProvision (lc : LocalConnection) (oc : OpOutcome) :
    LocalConnection × Except NsiError Unit :=
  match switchState lc.state .releasing with
  | .error e => (lc, .error e)
  | .ok _ =>
    match oc with
    | .success int_res_id =>
      ({ lc with internal_reservation_id := some int_res_id,
                 internal_connection_id := none, state := .reserved }, .ok ())
    | .failure m => ({ lc with state := .terminated }, .error (.releaseError m))

/-- Result of calling an operation on a child connection: either the call
raised synchronously (state-transition error; the caller's loop aborts and
the exception propagates), or it returned a deferred whose eventual result
is recorded. -/
inductive CallResult where
  | raised (e : NsiError)
  | completed (r : Except NsiError Unit)
  deriving DecidableEq, Repr

/-- A child of the aggregating connection: the optional local connection or a
remote sub-connection (`Connection.connections`, lines 267-271). -/
abbrev Child := LocalConnection ⊕ SubConnection

/-- State of a child. -/
def childState : Child → CState
  | .inl lc => lc.state
  | .inr sc => sc.state

/-- `Connection` (`connection.py`, lines 248-260).  `service_parameters` is
opaque to the connection logic and modelled as a string. -/
structure Connection where
  connection_id : String
  global_reservation_id : Option String
  description : Option String
  local_connection : Option LocalConnection
  sub_connections : List SubConnection
  service_parameters : Option String
  state : CState
  deriving DecidableEq, Repr

/-- `Connection.connections` (lines 267-271): the local connection, when
present, followed by the remote sub-connections. -/
def Connection.connections (c : Connection) : List Child :=
  match c.local_connection with
  | some l => .inl l :: c.sub_connections.map .inr
  | none => c.sub_connections.map .inr

/-- Write an updated child list back into the connection's fields (the
Python objects are mutated in place; the embedding rebuilds the record). -/
def Connection.setChildren (c : Connection) (chs : List Child) : Connection :=
  { c with local_connection := (chs.filterMap fun ch => ch.getLeft?).head?,
           sub_connections := chs.filterMap fun ch => ch.getRight? }

/-- One child's `reservation` call, wrapped as a `CallResult`: a
state-transition error is a synchronous raise; otherwise the deferred
completes with the downstream outcome. -/
def childReserve (ch : Child) (oc : OpOutcome) : Child × CallResult :=
  match ch with
  | .inl lc =>
    match switchState lc.state .reserving with
    | .error e => (.inl lc, .raised e)
    | .ok _ => let (lc', r) := lc.reservation oc; (.inl lc', .completed r)
  | .inr sc =>
    match switchState sc.state .reserving with
    | .error e => (.inr sc, .raised e)
    | .ok _ => let (sc', r) := sc.reservation oc; (.inr sc', .completed r)

/-- Child `cancelReservation` call as a `CallResult`. -/
def childCancel (ch : Child) (oc : OpOutcome) : Child × CallResult :=
  match ch with
  | .inl lc =>
    match switchState lc.state .terminating with
    | .error e => (.inl lc, .raised e)
    | .ok _ => let (lc', r) := lc.cancelReservation oc; (.inl lc', .completed r)
  | .inr sc =>
    match switchState sc.state .terminating with
    | .error e => (.inr sc, .raised e)
    | .ok _ => let (sc', r) := sc.cancelReservation oc; (.inr sc', .completed r)

/-- Child `provision` call as a `CallResult`. -/
def childProvision (ch : Child) (oc : OpOutcome) : Child × CallResult :=
  match ch with
  | .inl lc =>
    match switchState lc.state .provisioning with
    | .error e => (.inl lc, .raised e)
    | .ok _ => let (lc', r) := lc.provision oc; (.inl lc', .completed r)
  | .inr sc =>
    match switchState sc.state .provisioning with
    | .error e => (.inr sc, .raised e)
    | .ok _ => let (sc', r) := sc.provision oc; (.inr sc', .completed r)

/-- Child `releaseProvision` call as a `CallResult`. -/
def childRelease (ch : Child) (oc : OpOutcome) : Child × CallResult :=
  match ch with
  | .inl lc =>
    match switchState lc.state .releasing with
    | .error e => (.inl lc, .raised e)
    | .ok _ => let (lc', r) := lc.releaseProvision oc; (.inl lc', .completed r)
  | .inr sc =>
    match switchState sc.state .releasing with
    | .error e => (.inr sc, .raised e)
    | .ok _ => let (sc', r) := sc.releaseProvision oc; (.inr sc', .completed r)

/-- The parent's fan-out loop (`for sc in self.connections(): ...`): call
the operation on every child in order; a synchronous raise aborts the loop
and propagates (children after it are untouched); otherwise all deferred
results are collected, as by `defer.DeferredList`. -/
def fanout (f : Child → OpOutcome → Child × CallResult) :
    List (Child × OpOutcome) → List Child × Except NsiError (List (Except NsiError Unit))
  | [] => ([], .ok [])
  | (ch, oc) :: rest =>
    match (f ch oc).2 with
    | .raised e => ((f ch oc).1 :: rest.map Prod.fst, .error e)
    | .completed r =>
      ((f ch oc).1 :: (fanout f rest).1, (fanout f rest).2.map (r :: ·))

/-- `getErrorMessage()` of a collected deferred failure.  The success case is
unreachable where this is used (the aggregation branches guarantee the entry
is a failure; Python would fault on a success entry there). -/
def errMessage : Except NsiError Unit → String
  | .error (.connectionStateTransitionError m) => m
  | .error (.reserveError m) => m
  | .error (.cancelReservationError m) => m
  | .error (.provisionError m) => m
  | .error (.releaseError m) => m
  | .error (.payloadError m) => m
  | .error (.emptyLabelSet m) => m
  | .error (.assertionError m) => m
  | .error (.typeError m) => m
  | .error (.valueError m) => m
  | .error (.notImplementedError m) => m
  | .error (.indexError m) => m
  | .error .stopIteration => "StopIteration"
  | .ok _ => ""

/-- `reservationRequestsDone` (`connection.py`, lines 276-289): collapse the
children's reservation results.  All successes: switch to `RESERVED` and
succeed.  Some successes: switch to `TERMINATED` and fail with the partial
failure message over the failed children's messages.  No successes: switch
to `TERMINATED` and fail with the total failure message over all messages. -/
def reservationRequestsDone (c : Connection) (results : List (Except NsiError Unit)) :
    Connection × Except NsiError Unit :=
  let successes := results.map Except.isOk
  if successes.all (fun b => b) then
    match switchState c.state .reserved with
    | .ok s => ({ c with state := s }, .ok ())
    | .error e => (c, .error e)
  else
    match switchState c.state .terminated with
    | .error e => (c, .error e)
    | .ok s =>
      let c' := { c with state := s }
      if successes.any (fun b => b) then
        let failure_msg := String.intercalate " # "
          ((results.filter fun r => r.isOk = false).map errMessage)
        (c', .error (.reserveError
          ("Partial failure in reservation, may require manual cleanup (" ++ failure_msg ++ ")")))
      else
        let failure_msg := String.intercalate " # " (results.map errMessage)
        (c', .error (.reserveError
          ("Reservation failed for all local/sub connections (" ++ failure_msg ++ ")")))

/-- `Connection.reservation` (`connection.py`, lines 274-301): record the
service parameters (line 291, before the state check), switch to
`RESERVING`, fan the reservation out to every child and collapse the
results with `reservationRequestsDone`.  `ocs` assigns each child's
downstream outcome, in the order of `connections`. -/
def Connection.reservation (c : Connection) (sp : String) (ocs : List OpOutcome) :
    Connection × Except NsiError Unit :=
  let c1 := { c with service_parameters := some sp }
  match switchState c1.state .reserving with
  | .error e => (c1, .error e)
  | .ok s =>
    let c2 := { c1 with state := s }
    let (chs, fanRes) := fanout childReserve (c2.connections.zip ocs)
    let c3 := c2.setChildren chs
    match fanRes with
    | .error e => (c3, .error e)
    | .ok results => reservationRequestsDone c3 results

/-- `connectionCancelled` (`connection.py`, lines 306-318). -/
def connectionCancelled (c : Connection) (results : List (Except NsiError Unit)) :
    Connection × Except NsiError Unit :=
  let successes := results.map Except.isOk
  match switchState c.state .terminated with
  | .error e => (c, .error e)
  | .ok s =>
    let c' := { c with state := s }
    if successes.all (fun b => b) then
      (c', .ok ())
    else if successes.any (fun b => b) then
      (c', .error (.cancelReservationError "Cancel partially failed (may require manual cleanup)"))
    else
      (c', .error (.cancelReservationError "Cancel failed for all local/sub connections"))

/-- `Connection.cancelReservation` (`connection.py`, lines 304-329). -/
def Connection.cancelReservation (c : Connection) (ocs : List OpOutcome) :
    Connection × Except NsiError Unit :=
  match switchState c.state .terminating with
  | .error e => (c, .error e)
  | .ok s =>
    let c2 := { c with state := s }
    let (chs, fanRes) := fanout childCancel (c2.connections.zip ocs)
    let c3 := c2.setChildren chs
    match fanRes with
    | .error e => (c3, .error e)
    | .ok results => connectionCancelled c3 results

/-- `provisionComplete` (`connection.py`, lines 334-346). -/
def provisionComplete (c : Connection) (results : List (Except NsiError Unit)) :
    Connection × Except NsiError Unit :=
  let successes := results.map Except.isOk
  if successes.all (fun b => b) then
    match switchState c.state .provisioned with
    | .ok s => ({ c with state := s }, .ok ())
    | .error e => (c, .error e)
  else
    match switchState c.state .terminated with
    | .error e => (c, .error e)
    | .ok s =>
      let c' := { c with state := s }
      if successes.any (fun b => b) then
        (c', .error (.provisionError "Provision partially failed (may require manual cleanup)"))
      else
        (c', .error (.provisionError "Provision failed for all local/sub connections"))

/-- `Connection.provision` (`connection.py`, lines 332-357). -/
def Connection.provision (c : Connection) (ocs : List OpOutcome) :
    Connection × Except NsiError Unit :=
  match switchState c.state .provisioning with
  | .error e => (c, .error e)
  | .ok s =>
    let c2 := { c with state := s }
    let (chs, fanRes) := fanout childProvision (c2.connections.zip ocs)
    let c3 := c2.setChildren chs
    match fanRes with
    | .error e => (c3, .error e)
    | .ok results => provisionComplete c3 results

/-- `connectionReleased` (`connection.py`, lines 362-374); note the source's
total-failure message lacks the final `s` of `connections`. -/
def connectionReleased (c : Connection) (results : List (Except NsiError Unit)) :
    Connection × Except NsiError Unit :=
  let successes := results.map Except.isOk
  if successes.all (fun b => b) then
    match switchState c.state .reserved with
    | .ok s => ({ c with state := s }, .ok ())
    | .error e => (c, .error e)
  else
    match switchState c.state .terminated with
    | .error e => (c, .error e)
    | .ok s =>
      let c' := { c with state := s }
      if successes.any (fun b => b) then
        (c', .error (.releaseError "Release partially failed (may require manual cleanup)"))
      else
        (c', .error (.releaseError "Release failed for all local/sub connection"))

/-- `Connection.releaseProvision` (`connection.py`, lines 360-385). -/
def Connection.releaseProvision (c : Connection) (ocs : List OpOutcome) :
    Connection × Except NsiError Unit :=
  match switchState c.state .releasing with
  | .error e => (c, .error e)
  | .ok s =>
    let c2 := { c with state := s }
    let (chs, fanRes) := fanout childRelease (c2.connections.zip ocs)
    let c3 := c2.setChildren chs
    match fanRes with
    | .error e => (c3, .error e)
    | .ok results => connectionReleased c3 results

/-! ## Aggregation policy lemmas -/

/-- Did the downstream call succeed? -/
def OpOutcome.isSuccess : OpOutcome → Bool
  | .success _ => true
  | .failure _ => false

/-- The failure message carried by a failed outcome. -/
def OpOutcome.failureMsg : OpOutcome → Option String
  | .success _ => none
  | .failure m => some m

/-- The deferred result a fresh child's reservation reaches for a given
downstream outcome. -/
def resultOf : OpOutcome → Except NsiError Unit
  | .success _ => .ok ()
  | .failure m => .error (.reserveError m)

theorem childReserve_initial (ch : Child) (oc : OpOutcome) (h : childState ch = .initial) :
    (childReserve ch oc).2 = .completed (resultOf oc) := by
  cases ch with
  | inl lc =>
    simp only [childState] at h
    cases oc <;>
      simp [childReserve, switchState, TRANSITIONS, h, LocalConnection.reservation, resultOf]
  | inr sc =>
    simp only [childState] at h
    cases oc <;>
      simp [childReserve, switchState, TRANSITIONS, h, SubConnection.reservation, resultOf]

theorem fanout_reserve_initial (pairs : List (Child × OpOutcome))
    (h : ∀ p ∈ pairs, childState p.1 = .initial) :
    (fanout childReserve pairs).2 = .ok (pairs.map fun p => resultOf p.2) := by
  induction pairs with
  | nil => simp [fanout]
  | cons p rest ih =>
    have hp := childReserve_initial p.1 p.2 (h p (List.mem_cons_self p rest))
    have hrest := ih fun q hq => h q (List.mem_cons_of_mem p hq)
    obtain ⟨ch, oc⟩ := p
    simp [fanout, hp, hrest, Except.map]


theorem isOk_resultOf (oc : OpOutcome) : (resultOf oc).isOk = oc.isSuccess := by
  cases oc <;> rfl

theorem map_isOk_resultOf (ocs : List OpOutcome) :
    (ocs.map resultOf).map Except.isOk = ocs.map OpOutcome.isSuccess := by
  induction ocs with
  | nil => rfl
  | cons oc rest ih => simp only [List.map_cons, ih, isOk_resultOf]

theorem failed_messages_eq (ocs : List OpOutcome) :
    (((ocs.map resultOf).filter fun r => r.isOk = false).map errMessage)
      = ocs.filterMap OpOutcome.failureMsg := by
  induction ocs with
  | nil => rfl
  | cons oc rest ih =>
    cases oc <;>
      simp_all [resultOf, errMessage, OpOutcome.failureMsg, Except.toBool, List.filter_cons]

theorem all_failed_messages_eq (ocs : List OpOutcome)
    (h : ∀ oc ∈ ocs, oc.isSuccess = false) :
    ((ocs.map resultOf).map errMessage) = ocs.filterMap OpOutcome.failureMsg := by
  induction ocs with
  | nil => rfl
  | cons oc rest ih =>
    have hoc := h oc (List.mem_cons_self oc rest)
    have ih' := ih fun x hx => h x (List.mem_cons_of_mem oc hx)
    cases oc with
    | success v => exact absurd hoc (by simp [OpOutcome.isSuccess])
    | failure m => simp [resultOf, errMessage, OpOutcome.failureMsg, ih']

theorem rrd_all (c : Connection) (results : List (Except NsiError Unit))
    (hst : c.state = .reserving)
    (hall : (results.map Except.isOk).all (fun b => b) = true) :
    reservationRequestsDone c results = ({ c with state := .reserved }, .ok ()) := by
  have hsw : switchState CState.reserving CState.reserved = .ok CState.reserved := rfl
  simp only [reservationRequestsDone, hall, hst, hsw]
  simp

theorem rrd_mixed (c : Connection) (results : List (Except NsiError Unit))
    (hst : c.state = .reserving)
    (hnall : (results.map Except.isOk).all (fun b => b) = false)
    (hany : (results.map Except.isOk).any (fun b => b) = true) :
    reservationRequestsDone c results = ({ c with state := .terminated },
      .error (.reserveError ("Partial failure in reservation, may require manual cleanup ("
        ++ String.intercalate " # " ((results.filter fun r => r.isOk = false).map errMessage)
        ++ ")"))) := by
  have hsw : switchState CState.reserving CState.terminated = .ok CState.terminated := rfl
  simp only [reservationRequestsDone, hnall, hany, hst, hsw]
  simp

theorem rrd_all_failed (c : Connection) (results : List (Except NsiError Unit))
    (hst : c.state = .reserving)
    (hnall : (results.map Except.isOk).all (fun b => b) = false)
    (hnany : (results.map Except.isOk).any (fun b => b) = false) :
    reservationRequestsDone c results = ({ c with state := .terminated },
      .error (.reserveError ("Reservation failed for all local/sub connections ("
        ++ String.intercalate " # " (results.map errMessage) ++ ")"))) := by
  have hsw : switchState CState.reserving CState.terminated = .ok CState.terminated := rfl
  simp only [reservationRequestsDone, hnall, hnany, hst, hsw]
  simp

/-- Running `Connection.reservation` from `Initial` with fresh children: the
service parameters are recorded, the parent moves to `Reserving`, the
fan-out completes without a synchronous raise, and the aggregation step runs
on the children's results. -/
theorem reservation_initial_run (c : Connection) (sp : String) (ocs : List OpOutcome)
    (hs : c.state = .initial)
    (hch : ∀ ch ∈ c.connections, childState ch = .initial)
    (hlen : ocs.length = c.connections.length) :
    ∃ c3 : Connection,
      c3.state = .reserving ∧ c3.service_parameters = some sp ∧
      c.reservation sp ocs = reservationRequestsDone c3 (ocs.map resultOf) := by
  have hzip : ∀ p ∈ (c.connections.zip ocs), childState p.1 = CState.initial := by
    intro p hp
    obtain ⟨p1, p2⟩ := p
    exact hch p1 (List.of_mem_zip hp).1
  have hfan := fanout_reserve_initial (c.connections.zip ocs) hzip
  have hres : ((c.connections.zip ocs).map fun p => resultOf p.2) = ocs.map resultOf := by
    have h2 : ((c.connections.zip ocs).map fun p => resultOf p.2)
        = ((c.connections.zip ocs).map Prod.snd).map resultOf := by
      simp
    rw [h2, List.map_snd_zip _ _ (le_of_eq hlen)]
  have hsw : switchState CState.initial CState.reserving = .ok CState.reserving := rfl
  refine ⟨Connection.setChildren { c with service_parameters := some sp, state := CState.reserving } (fanout childReserve (({ c with service_parameters := some sp, state := CState.reserving } : Connection).connections.zip ocs)).1, ?_, ?_, ?_⟩
  · simp [Connection.setChildren]
  · simp [Connection.setChildren]
  · have hconn : ({ c with service_parameters := some sp, state := CState.reserving } : Connection).connections = c.connections := by
      simp [Connection.connections]
    simp only [Connection.reservation, hs, hsw, hconn, hfan, hres]

/-- C1: aggregation policy of `Connection.reservation` from state `Initial`.
All children succeeding moves the parent to `Reserved` with success; a mix
of successes and failures moves it to `Terminated` and fails with
`ReserveError` `'Partial failure in reservation, may require manual cleanup'`
listing each failed child's message; all children failing moves it to
`Terminated` and fails with `ReserveError`
`'Reservation failed for all local/sub connections'` listing the per-child
messages. -/
theorem reservation_aggregation_policy (c : Connection) (sp : String) (ocs : List OpOutcome)
    (hs : c.state = .initial)
    (hch : ∀ ch ∈ c.connections, childState ch = .initial)
    (hlen : ocs.length = c.connections.length) :
    ((∀ oc ∈ ocs, oc.isSuccess = true) →
        (c.reservation sp ocs).1.state = .reserved ∧ (c.reservation sp ocs).2 = .ok ()) ∧
    ((∃ oc ∈ ocs, oc.isSuccess = true) → (∃ oc ∈ ocs, oc.isSuccess = false) →
        (c.reservation sp ocs).1.state = .terminated ∧
        (c.reservation sp ocs).2 = .error (.reserveError
          ("Partial failure in reservation, may require manual cleanup (" ++
            String.intercalate " # " (ocs.filterMap OpOutcome.failureMsg) ++ ")"))) ∧
    (ocs ≠ [] → (∀ oc ∈ ocs, oc.isSuccess = false) →
        (c.reservation sp ocs).1.state = .terminated ∧
        (c.reservation sp ocs).2 = .error (.reserveError
          ("Reservation failed for all local/sub connections (" ++
            String.intercalate " # " (ocs.filterMap OpOutcome.failureMsg) ++ ")"))) := by
  obtain ⟨c3, hc3s, _, hrun⟩ := reservation_initial_run c sp ocs hs hch hlen
  rw [hrun]
  refine ⟨?_, ?_, ?_⟩
  · intro hall
    have h1 : ((ocs.map resultOf).map Except.isOk).all (fun b => b) = true := by
      rw [map_isOk_resultOf]
      simp only [List.all_eq_true]
      intro b hb
      obtain ⟨oc, hoc, rfl⟩ := List.mem_map.mp hb
      exact hall oc hoc
    rw [rrd_all c3 _ hc3s h1]
    exact ⟨rfl, rfl⟩
  · rintro ⟨ocS, hocS, hS⟩ ⟨ocF, hocF, hF⟩
    have hnall : ((ocs.map resultOf).map Except.isOk).all (fun b => b) = false := by
      rw [map_isOk_resultOf]
      simp only [List.all_eq_false]
      exact ⟨false, List.mem_map.mpr ⟨ocF, hocF, hF⟩, by simp⟩
    have hany : ((ocs.map resultOf).map Except.isOk).any (fun b => b) = true := by
      rw [map_isOk_resultOf]
      simp only [List.any_eq_true]
      exact ⟨true, List.mem_map.mpr ⟨ocS, hocS, hS⟩, rfl⟩
    rw [rrd_mixed c3 _ hc3s hnall hany, failed_messages_eq]
    exact ⟨rfl, rfl⟩
  · intro hne hall
    obtain ⟨oc0, hoc0⟩ := List.exists_mem_of_ne_nil ocs hne
    have hnall : ((ocs.map resultOf).map Except.isOk).all (fun b => b) = false := by
      rw [map_isOk_resultOf]
      simp only [List.all_eq_false]
      exact ⟨false, List.mem_map.mpr ⟨oc0, hoc0, hall oc0 hoc0⟩, by simp⟩
    have hnany : ((ocs.map resultOf).map Except.isOk).any (fun b => b) = false := by
      rw [map_isOk_resultOf]
      simp only [List.any_eq_false]
      intro b hb
      obtain ⟨oc, hoc, rfl⟩ := List.mem_map.mp hb
      simp [hall oc hoc]
    rw [rrd_all_failed c3 _ hc3s hnall hnany, all_failed_messages_eq ocs hall]
    exact ⟨rfl, rfl⟩

/-- Local child used by witnesses. -/
def witLocal : LocalConnection :=
  ⟨"A", "B", none, none, .initial⟩

/-- Remote child used by witnesses. -/
def witSub : SubConnection :=
  ⟨"sub-1", "netB", "B", "C", .initial⟩

/-- Concrete connection used by witnesses: one local child and one remote
child, all in state `Initial`. -/
def witC : Connection :=
  ⟨"conn-1", none, none, some witLocal, [witSub], none, .initial⟩

/-- Witness for `reservation_aggregation_policy`: a concrete connection with
one local and one remote child, exercising the mixed-outcome case. -/
theorem reservation_aggregation_policy_witness :
    (witC.reservation "sp" [.success "a", .failure "boom"]).1.state = .terminated ∧
    (witC.reservation "sp" [.success "a", .failure "boom"]).2 = .error (.reserveError
      ("Partial failure in reservation, may require manual cleanup (" ++
        String.intercalate " # "
          ([OpOutcome.success "a", OpOutcome.failure "boom"].filterMap OpOutcome.failureMsg)
        ++ ")")) := by
  have h := reservation_aggregation_policy witC "sp" [.success "a", .failure "boom"]
    rfl (by simp [witC, Connection.connections, witLocal, witSub, childState]) rfl
  exact h.2.1 ⟨.success "a", by simp, rfl⟩ ⟨.failure "boom", by simp, rfl⟩

/-- C10: an aggregating connection in `Initial` with no local connection and
no remote sub-connections reserves vacuously: the empty fan-out counts as
all children succeeding (`all([]) == True`), so the parent records the
service parameters, transitions `Initial → Reserving → Reserved` and returns
success without any backend or proxy call. -/
theorem empty_fanout_reserves (c : Connection) (sp : String)
    (hs : c.state = .initial) (hl : c.local_connection = none)
    (hsub : c.sub_connections = []) :
    c.connections = [] ∧
    c.reservation sp []
      = ({ c with service_parameters := some sp, state := .reserved }, .ok ()) := by
  obtain ⟨cid, gid, desc, lc, subs, sps, st⟩ := c
  dsimp only at hs hl hsub
  subst hs; subst hl; subst hsub
  exact ⟨rfl, rfl⟩

/-- Childless connection used by the C10 witness. -/
def witE : Connection := ⟨"c0", none, none, none, [], none, .initial⟩

/-- Witness for `empty_fanout_reserves` at a concrete childless connection. -/
theorem empty_fanout_reserves_witness :
    witE.connections = [] ∧
    witE.reservation "sp" []
      = ({ witE with service_parameters := some "sp", state := .reserved }, .ok ()) :=
  empty_fanout_reserves witE "sp" rfl rfl rfl

/-- Terminated aggregating connection used by the C3 counterexample. -/
def cxConn : Connection := ⟨"C1", none, none, none, [], none, .terminated⟩

/-- Terminated remote sub-connection used by the C3 witness. -/
def cxSub : SubConnection := ⟨"s", "n", "a", "b", .terminated⟩

/-- Terminated local connection used by the C3 witness. -/
def cxLocal : LocalConnection := ⟨"a", "b", none, none, .terminated⟩

/-- C3 counterexample: calling `reservation` on a `Terminated` aggregating
connection fails and the state stays `Terminated`, but the connection record
is mutated — `self.service_parameters` is assigned (line 291) before the
failing state check (line 292), so "no other field of the connection is
changed by the failing call" is false. -/
theorem terminated_mutation_counterexample :
    cxConn.state = .terminated ∧
    (cxConn.reservation "new-params" []).2.isOk = false ∧
    (cxConn.reservation "new-params" []).1.state = .terminated ∧
    (cxConn.reservation "new-params" []).1 ≠ cxConn := by
  refine ⟨rfl, rfl, rfl, fun h => ?_⟩
  exact Option.noConfusion (congrArg Connection.service_parameters h)

/-- C3 (amended): once a connection or sub-connection is `Terminated`, every
later call to `reservation`, `cancelReservation`, `provision`,
`releaseProvision`, or `switchState` raises `ConnectionStateTransitionError`
and the record is unchanged — except that `Connection.reservation` first
overwrites `service_parameters` (and changes nothing else) before its state
check fails.  The state itself always remains `Terminated`. -/
theorem terminated_absorption_amended
    (c : Connection) (sc : SubConnection) (lc : LocalConnection)
    (sp : String) (ocs : List OpOutcome) (oc : OpOutcome)
    (hc : c.state = .terminated) (hsc : sc.state = .terminated)
    (hlc : lc.state = .terminated) :
    (∀ t, ∃ m, switchState .terminated t = .error (.connectionStateTransitionError m)) ∧
    (∃ m, c.reservation sp ocs
        = ({ c with service_parameters := some sp },
           .error (.connectionStateTransitionError m))) ∧
    (∃ m, c.cancelReservation ocs = (c, .error (.connectionStateTransitionError m))) ∧
    (∃ m, c.provision ocs = (c, .error (.connectionStateTransitionError m))) ∧
    (∃ m, c.releaseProvision ocs = (c, .error (.connectionStateTransitionError m))) ∧
    (∃ m, sc.reservation oc = (sc, .error (.connectionStateTransitionError m))) ∧
    (∃ m, sc.cancelReservation oc = (sc, .error (.connectionStateTransitionError m))) ∧
    (∃ m, sc.provision oc = (sc, .error (.connectionStateTransitionError m))) ∧
    (∃ m, sc.releaseProvision oc = (sc, .error (.connectionStateTransitionError m))) ∧
    (∃ m, lc.reservation oc = (lc, .error (.connectionStateTransitionError m))) ∧
    (∃ m, lc.cancelReservation oc = (lc, .error (.connectionStateTransitionError m))) ∧
    (∃ m, lc.provision oc = (lc, .error (.connectionStateTransitionError m))) ∧
    (∃ m, lc.releaseProvision oc = (lc, .error (.connectionStateTransitionError m))) := by
  obtain ⟨c1f, c2f, c3f, c4f, c5f, c6f, cst⟩ := c
  obtain ⟨s1f, s2f, s3f, s4f, sst⟩ := sc
  obtain ⟨l1f, l2f, l3f, l4f, lst⟩ := lc
  dsimp only at hc hsc hlc
  subst hc; subst hsc; subst hlc
  refine ⟨fun t => by cases t <;> exact ⟨_, rfl⟩,
    ⟨_, rfl⟩, ⟨_, rfl⟩, ⟨_, rfl⟩, ⟨_, rfl⟩, ⟨_, rfl⟩, ⟨_, rfl⟩, ⟨_, rfl⟩, ⟨_, rfl⟩,
    ⟨_, rfl⟩, ⟨_, rfl⟩, ⟨_, rfl⟩, ⟨_, rfl⟩⟩

/-- Witness for `terminated_absorption_amended` at concrete terminated
records (two representative conjuncts). -/
theorem terminated_absorption_amended_witness :
    (∃ m, cxConn.cancelReservation [] = (cxConn, .error (.connectionStateTransitionError m))) ∧
    (∃ m, cxSub.provision (.success "s")
        = (cxSub, .error (.connectionStateTransitionError m))) := by
  have h := terminated_absorption_amended cxConn cxSub cxLocal "sp" [] (.success "s")
    rfl rfl rfl
  exact ⟨h.2.2.1, h.2.2.2.2.2.2.2.1⟩

/-! ## Label algebra (`opennsa/nsa.py`, lines 51-163)

A label value token is a string; `createValue` routes a token containing
`-` to the range branch (`value.split('-', 1)` then `int` on both halves)
and any other token through a single `int()`.  A negative literal such as
`-5` contains `-`, so it is split into `('', '5')` and `int('')` raises
`ValueError`; hence every endpoint `int()` can produce here is
non-negative, and endpoints are modelled as `Nat`.  A token that `int()`
rejects is modelled as `malformed`. -/

/-- A textual label token after the comma split: `n`, `lo-hi`, or a string
the integer parser rejects. -/
inductive Token where
  | singleton (n : Nat)
  | range (lo hi : Nat)
  | malformed (s : String)
  deriving DecidableEq, Repr

/-- `createValue` inside `_parseLabelValues` (lines 68-80). -/
def createValue : Token → Except NsiError (Nat × Nat)
  | .singleton n => .ok (n, n)
  | .range lo hi =>
    if lo > hi then
      .error (.payloadError "Label value is in descending order, which is not allowed.")
    else .ok (lo, hi)
  | .malformed s =>
    .error (.payloadError ("Label " ++ s ++ " is not an integer or an integer range."))

/-- The list comprehension `[ createValue(value) for value in values ]`:
tokens are parsed left to right and the first error propagates. -/
def parseTokens : List Token → Except NsiError (List (Nat × Nat))
  | [] => .ok []
  | t :: ts =>
    match createValue t with
    | .error e => .error e
    | .ok p =>
      match parseTokens ts with
      | .error e => .error e
      | .ok ps => .ok (p :: ps)

/-- Python's tuple comparison, as used by `sorted(...)` on the parsed
`(lo, hi)` pairs: lexicographic. -/
def pairLe (p q : Nat × Nat) : Prop :=
  p.1 < q.1 ∨ (p.1 = q.1 ∧ p.2 ≤ q.2)

instance : DecidableRel pairLe := fun p q => by
  unfold pairLe; infer_instance

instance : IsTotal (Nat × Nat) pairLe :=
  ⟨fun p q => by unfold pairLe; omega⟩

instance : IsTrans (Nat × Nat) pairLe :=
  ⟨fun p q r hpq hqr => by unfold pairLe at *; omega⟩

/-- `sorted(...)` on the parsed pairs.  Python's sort is stable, but the
lexicographic order on pairs is total and antisymmetric, so every sort
produces the same list; insertion sort models it exactly. -/
def sortPairs (l : List (Nat × Nat)) : List (Nat × Nat) :=
  List.insertionSort pairLe l

/-- The normalization loop of `_parseLabelValues` (lines 89-99) after its
first iteration: `l` is the last element appended to `nv` (the only one the
Python loop ever inspects or replaces), `rest` the remaining sorted input.
If the next range starts at most one past `l`'s end it is merged into `l`,
else `l` is emitted and the next range becomes the new last element. -/
def normAux : (Nat × Nat) → List (Nat × Nat) → List (Nat × Nat)
  | l, [] => [l]
  | l, v :: rest =>
    if v.1 ≤ l.2 + 1 then normAux (l.1, max l.2 v.2) rest
    else l :: normAux v rest

/-- The full normalization loop (empty input gives `nv = []`). -/
def normalizeRanges : List (Nat × Nat) → List (Nat × Nat)
  | [] => []
  | v :: rest => normAux v rest

/-- `Label._parseLabelValues` (lines 66-101): parse every token, sort, then
merge overlapping or adjacent ranges. -/
def _parseLabelValues (tokens : List Token) : Except NsiError (List (Nat × Nat)) :=
  match parseTokens tokens with
  | .error e => .error e
  | .ok parsed => .ok (normalizeRanges (sortPairs parsed))

/-- `Label` (lines 56-63): a type URI and the parsed value ranges. -/
structure Label where
  type_ : String
  values : List (Nat × Nat)
  deriving DecidableEq, Repr

/-- The `values` argument of `Label.__init__`: `None`, a comma-separated
string (already split into its tokens — `str.split(',')` always yields at
least one token), or a list of tokens. -/
inductive LabelValuesArg where
  | noneArg
  | strArg (tokens : List Token)
  | listArg (tokens : List Token)
  deriving DecidableEq, Repr

/-- `Label.__init__` (lines 58-63).  The assert compares `type(values)`
against the tuple `(None, str, list)`; for `values = None` the type is
`NoneType`, which is not an element of that tuple (the tuple holds the
value `None`, not the type), so the assert fires.  For a string or a list
the values are parsed; no emptiness check is performed. -/
def labelInit (type_ : String) (values : LabelValuesArg) : Except NsiError Label :=
  match values with
  | .noneArg =>
    .error (.assertionError "Type of Label values must be a None, str, or list.")
  | .strArg tokens | .listArg tokens =>
    match _parseLabelValues tokens with
    | .ok vs => .ok ⟨type_, vs⟩
    | .error e => .error e

/-- Inner `while True` loop of `Label.intersect` (lines 113-130) for a fixed
range `v` of `self.values`, with `o` the current range yielded by
`iter(other.values)` and `os` what the iterator still holds.  Returns the
ranges appended for this `v` together with the final cursor and remainder
(after `StopIteration` the stale cursor stays bound and the remainder is
empty, exactly as in the source). -/
def interInner (v : Nat × Nat) : (Nat × Nat) → List (Nat × Nat) →
    List (Nat × Nat) × (Nat × Nat) × List (Nat × Nat)
  | o, os =>
    if v.2 < o.1 then ([], o, os)
    else if o.2 < v.1 then
      match os with
      | [] => ([], o, [])
      | o2 :: os2 => interInner v o2 os2
    else
      if v.2 ≤ o.2 then ([(max v.1 o.1, min v.2 o.2)], o, os)
      else
        match os with
        | [] => ([(max v.1 o.1, min v.2 o.2)], o, [])
        | o2 :: os2 =>
          let r := interInner v o2 os2
          ((max v.1 o.1, min v.2 o.2) :: r.1, r.2)

/-- Outer `for v1, v2 in self.values` loop of `Label.intersect`: the cursor
state persists across iterations. -/
def interAux : List (Nat × Nat) → (Nat × Nat) → List (Nat × Nat) → List (Nat × Nat)
  | [], _, _ => []
  | v :: vs, o, os =>
    let r := interInner v o os
    r.1 ++ interAux vs r.2.1 r.2.2

/-- `Label.intersect` (lines 104-136): assert equal types, take the first
range of `other` as the initial cursor (an empty `other.values` makes
`i.next()` raise an uncaught `StopIteration`), sweep, raise `EmptyLabelSet`
on an empty result, and otherwise rebuild a `Label` from the textual form
`'lo-hi,lo-hi,...'` — whose tokens parse back to exactly the emitted pairs,
so the constructor re-sorts and re-normalizes them. -/
def Label.intersect (A B : Label) : Except NsiError Label :=
  if A.type_ = B.type_ then
    match B.values with
    | [] => .error .stopIteration
    | o :: os =>
      let emitted := interAux A.values o os
      if emitted = [] then
        .error (.emptyLabelSet "Label intersection produced empty label set")
      else
        match _parseLabelValues (emitted.map fun p => Token.range p.1 p.2) with
        | .ok vs => .ok ⟨A.type_, vs⟩
        | .error e => .error e
  else .error (.assertionError "Cannot insersect label of different types")

/-- `Label.__eq__` (lines 156-159): equal types and equal `sorted(values)`. -/
def pyLabelEq (a b : Label) : Prop :=
  a.type_ = b.type_ ∧ sortPairs a.values = sortPairs b.values

/-- Lift of `pyLabelEq` to the results of two fallible calls: both raise the
same exception or both return Python-equal labels. -/
def resultLabelEq : Except NsiError Label → Except NsiError Label → Prop
  | .ok a, .ok b => pyLabelEq a b
  | .error e, .error e' => e = e'
  | _, _ => False

/-! ## Canonicality and membership -/

/-- Membership of an integer in a list of inclusive ranges. -/
def memV (x : Nat) (l : List (Nat × Nat)) : Prop :=
  ∃ p ∈ l, p.1 ≤ x ∧ x ≤ p.2

/-- The spec's label invariant, §8.1: every stored range satisfies
`lo ≤ hi`, and consecutive ranges satisfy `hi + 1 < lo'` (sorted,
non-overlapping, non-adjacent). -/
def Canonical (l : List (Nat × Nat)) : Prop :=
  (∀ p ∈ l, p.1 ≤ p.2) ∧ l.Chain' (fun p q => p.2 + 1 < q.1)

/-- A label reachable from the constructor: canonical and non-empty. -/
def CanonicalLabel (L : Label) : Prop :=
  Canonical L.values ∧ L.values ≠ []

instance : DecidablePred Canonical := fun l => by
  unfold Canonical; infer_instance

instance : DecidablePred CanonicalLabel := fun L => by
  unfold CanonicalLabel; infer_instance

instance : Decidable (memV x l) := by
  unfold memV; infer_instance

theorem createValue_le (t : Token) (p : Nat × Nat) (h : createValue t = .ok p) :
    p.1 ≤ p.2 := by
  cases t with
  | singleton n =>
    simp only [createValue, Except.ok.injEq] at h
    subst h; exact le_refl n
  | range lo hi =>
    simp only [createValue] at h
    split at h
    · exact absurd h (by simp)
    · simp only [Except.ok.injEq] at h
      subst h; omega
  | malformed s => exact absurd h (by simp [createValue])

theorem parseTokens_le (tokens : List Token) :
    ∀ ps, parseTokens tokens = .ok ps → ∀ p ∈ ps, p.1 ≤ p.2 := by
  induction tokens with
  | nil =>
    intro ps h
    simp only [parseTokens, Except.ok.injEq] at h
    subst h; intro p hp; exact absurd hp (List.not_mem_nil p)
  | cons t ts ih =>
    intro ps h
    simp only [parseTokens] at h
    cases hcv : createValue t with
    | error e => rw [hcv] at h; exact absurd h (by simp)
    | ok q =>
      rw [hcv] at h
      cases hp : parseTokens ts with
      | error e => rw [hp] at h; exact absurd h (by simp)
      | ok qs =>
        rw [hp] at h
        simp only [Except.ok.injEq] at h
        subst h
        intro p hmem
        rcases List.mem_cons.mp hmem with hq | hqs
        · subst hq; exact createValue_le t p hcv
        · exact ih qs hp p hqs

theorem parseTokens_length (tokens : List Token) :
    ∀ ps, parseTokens tokens = .ok ps → ps.length = tokens.length := by
  induction tokens with
  | nil =>
    intro ps h
    simp only [parseTokens, Except.ok.injEq] at h
    subst h; rfl
  | cons t ts ih =>
    intro ps h
    simp only [parseTokens] at h
    cases hcv : createValue t with
    | error e => rw [hcv] at h; exact absurd h (by simp)
    | ok q =>
      rw [hcv] at h
      cases hp : parseTokens ts with
      | error e => rw [hp] at h; exact absurd h (by simp)
      | ok qs =>
        rw [hp] at h
        simp only [Except.ok.injEq] at h
        subst h
        simp [ih qs hp]

theorem normAux_head (rest : List (Nat × Nat)) :
    ∀ l, ∃ h2 t, normAux l rest = (l.1, h2) :: t := by
  induction rest with
  | nil => intro l; exact ⟨l.2, [], rfl⟩
  | cons v rest ih =>
    intro l
    by_cases h : v.1 ≤ l.2 + 1
    · obtain ⟨h2, t, ht⟩ := ih (l.1, max l.2 v.2)
      exact ⟨h2, t, by simpa [normAux, h] using ht⟩
    · exact ⟨l.2, normAux v rest, by simp [normAux, h]⟩

theorem normAux_canonical (rest : List (Nat × Nat)) :
    ∀ l, l.1 ≤ l.2 → (∀ p ∈ rest, p.1 ≤ p.2) → Canonical (normAux l rest) := by
  induction rest with
  | nil =>
    intro l hl _
    refine ⟨?_, by simp [normAux]⟩
    intro p hp
    simp only [normAux, List.mem_singleton] at hp
    subst hp; exact hl
  | cons v rest ih =>
    intro l hl hmem
    by_cases h : v.1 ≤ l.2 + 1
    · have hrec := ih (l.1, max l.2 v.2) (le_trans hl (le_max_left _ _))
        (fun p hp => hmem p (List.mem_cons_of_mem v hp))
      simpa [normAux, h] using hrec
    · have hrec := ih v (hmem v (List.mem_cons_self v rest))
        (fun p hp => hmem p (List.mem_cons_of_mem v hp))
      obtain ⟨h2, t, ht⟩ := normAux_head rest v
      refine ⟨?_, ?_⟩
      · intro p hp
        simp only [normAux, if_neg h, List.mem_cons] at hp
        rcases hp with hp | hp
        · subst hp; exact hl
        · exact hrec.1 p hp
      · show List.Chain' _ (normAux l (v :: rest))
        rw [show normAux l (v :: rest) = l :: normAux v rest from by simp [normAux, h], ht]
        refine List.chain'_cons.mpr ⟨by omega, ?_⟩
        rw [← ht]; exact hrec.2

theorem normalizeRanges_canonical (l : List (Nat × Nat))
    (h : ∀ p ∈ l, p.1 ≤ p.2) : Canonical (normalizeRanges l) := by
  cases l with
  | nil => exact ⟨by simp [normalizeRanges], by simp [normalizeRanges]⟩
  | cons v rest =>
    simpa [normalizeRanges] using
      normAux_canonical rest v (h v (List.mem_cons_self v rest))
        (fun p hp => h p (List.mem_cons_of_mem v hp))

/-- C4: every value list a `Label` is successfully constructed with — the
output of `_parseLabelValues` on a comma-separated textual form or a token
list — is canonical: each range satisfies `lo ≤ hi` and consecutive ranges
satisfy `hi + 1 < lo'` (sorted, non-overlapping, non-adjacent), as produced
by the sort-then-merge normalization. -/
theorem parseLabelValues_canonical (tokens : List Token) (vs : List (Nat × Nat))
    (h : _parseLabelValues tokens = .ok vs) : Canonical vs := by
  unfold _parseLabelValues at h
  cases hp : parseTokens tokens with
  | error e => rw [hp] at h; exact absurd h (by simp)
  | ok parsed =>
    rw [hp] at h
    simp only [Except.ok.injEq] at h
    subst h
    have hle : ∀ p ∈ sortPairs parsed, p.1 ≤ p.2 := fun p hp' =>
      parseTokens_le tokens parsed hp p
        ((List.perm_insertionSort pairLe parsed).mem_iff.mp hp')
    exact normalizeRanges_canonical _ hle

/-- Witness for `parseLabelValues_canonical`: the parse of
`'1780-1787,1790,1785-1788'`. -/
theorem parseLabelValues_canonical_witness :
    Canonical [(1780, 1788), (1790, 1790)] :=
  parseLabelValues_canonical
    [.range 1780 1787, .singleton 1790, .range 1785 1788]
    [(1780, 1788), (1790, 1790)] rfl

theorem normalizeRanges_ne_nil (l : List (Nat × Nat)) (h : l ≠ []) :
    normalizeRanges l ≠ [] := by
  cases l with
  | nil => exact absurd rfl h
  | cons v rest =>
    obtain ⟨h2, t, ht⟩ := normAux_head rest v
    simp [normalizeRanges, ht]

theorem parseLabelValues_ne_nil (tokens : List Token) (vs : List (Nat × Nat))
    (hne : tokens ≠ []) (h : _parseLabelValues tokens = .ok vs) : vs ≠ [] := by
  unfold _parseLabelValues at h
  cases hp : parseTokens tokens with
  | error e => rw [hp] at h; exact absurd h (by simp)
  | ok parsed =>
    rw [hp] at h
    simp only [Except.ok.injEq] at h
    subst h
    apply normalizeRanges_ne_nil
    have hlen := parseTokens_length tokens parsed hp
    have hperm := List.perm_insertionSort pairLe parsed
    intro hnil
    have : parsed.length = 0 := by
      rw [← hperm.length_eq]
      simpa [sortPairs] using congrArg List.length hnil
    rw [hlen] at this
    exact hne (List.length_eq_zero.mp this)

/-- C6 counterexample: the `Label` constructor performs no emptiness check —
constructing from an empty list of value tokens succeeds and produces a
`Label` whose value set is empty, where the claim requires a failure. -/
theorem empty_label_constructible :
    labelInit "vlan" (.listArg []) = .ok ⟨"vlan", []⟩ := rfl

/-- C6 (amended): empty label sets are representable — an empty token list
yields a `Label` with an empty value set.  Passing no values at all does
fail, but through the mis-stated type assertion (the assert tuple holds the
value `None`, not the type `NoneType`), not through an emptiness check.
From a non-empty token list — in particular from any comma-separated
string, since `split(',')` never yields an empty list — a successful
construction always carries at least one range. -/
theorem label_emptiness_amended (ty : String) (tokens : List Token)
    (hne : tokens ≠ []) :
    labelInit ty (.listArg []) = .ok ⟨ty, []⟩ ∧
    (∃ m, labelInit ty .noneArg = .error (.assertionError m)) ∧
    (∀ L, labelInit ty (.listArg tokens) = .ok L → L.values ≠ []) ∧
    (∀ L, labelInit ty (.strArg tokens) = .ok L → L.values ≠ []) := by
  refine ⟨rfl, ⟨_, rfl⟩, ?_, ?_⟩ <;>
  · intro L h
    simp only [labelInit] at h
    cases hp : _parseLabelValues tokens with
    | error e => rw [hp] at h; exact absurd h (by simp)
    | ok vs =>
      rw [hp] at h
      simp only [Except.ok.injEq] at h
      subst h
      exact parseLabelValues_ne_nil tokens vs hne hp

/-- Witness for `label_emptiness_amended` at a one-token list. -/
theorem label_emptiness_amended_witness :
    labelInit "vlan" (.listArg []) = .ok ⟨"vlan", []⟩ ∧
    (∃ m, labelInit "vlan" .noneArg = .error (.assertionError m)) ∧
    (∀ L, labelInit "vlan" (.listArg [.singleton 5]) = .ok L → L.values ≠ []) ∧
    (∀ L, labelInit "vlan" (.strArg [.singleton 5]) = .ok L → L.values ≠ []) :=
  label_emptiness_amended "vlan" [.singleton 5] (by simp)

/-! ## Membership and canonicality toolkit for the intersection proof -/

theorem memV_nil (x : Nat) : ¬ memV x [] := by simp [memV]

theorem memV_cons (x : Nat) (p : Nat × Nat) (t : List (Nat × Nat)) :
    memV x (p :: t) ↔ (p.1 ≤ x ∧ x ≤ p.2) ∨ memV x t := by
  simp [memV]

theorem memV_append (x : Nat) (l₁ l₂ : List (Nat × Nat)) :
    memV x (l₁ ++ l₂) ↔ memV x l₁ ∨ memV x l₂ := by
  simp [memV, or_and_right, exists_or]

theorem canonical_tail {p : Nat × Nat} {t : List (Nat × Nat)}
    (h : Canonical (p :: t)) : Canonical t :=
  ⟨fun q hq => h.1 q (List.mem_cons_of_mem p hq), h.2.tail⟩

theorem canon_gap {p : Nat × Nat} {t : List (Nat × Nat)}
    (h : Canonical (p :: t)) : ∀ q ∈ t, p.2 + 1 < q.1 := by
  induction t generalizing p with
  | nil => intro q hq; exact absurd hq (List.not_mem_nil q)
  | cons r t ih =>
    intro q hq
    have hpr : p.2 + 1 < r.1 := List.chain'_cons.mp h.2 |>.1
    rcases List.mem_cons.mp hq with hq | hq
    · subst hq; exact hpr
    · have hr : r.1 ≤ r.2 := h.1 r (by simp)
      have := ih (canonical_tail h) q hq
      omega

theorem canonical_suffix (l₁ l₂ : List (Nat × Nat)) (h : Canonical (l₁ ++ l₂)) :
    Canonical l₂ := by
  induction l₁ with
  | nil => exact h
  | cons p t ih => exact ih (canonical_tail h)

theorem memV_pair (x a b : Nat) : memV x [(a, b)] ↔ (a ≤ x ∧ x ≤ b) := by
  simp [memV]

/-- Specification of the inner sweep loop: on a canonical cursor list it
(1) consumes a prefix of ranges that all end strictly below `v`'s end,
(2) emits exactly the values of `v`'s span present in the cursor list, and
(3) only emits non-degenerate ranges. -/
theorem interInner_spec (v : Nat × Nat) (hv : v.1 ≤ v.2) :
    ∀ (os : List (Nat × Nat)) (o : Nat × Nat), Canonical (o :: os) →
      (∃ pre, o :: os = pre ++ (interInner v o os).2.1 :: (interInner v o os).2.2 ∧
          ∀ r ∈ pre, r.2 < v.2) ∧
      (∀ x, memV x (interInner v o os).1 ↔ (v.1 ≤ x ∧ x ≤ v.2 ∧ memV x (o :: os))) ∧
      (∀ p ∈ (interInner v o os).1, p.1 ≤ p.2) := by
  intro os
  induction os with
  | nil =>
    intro o hc
    have ho : o.1 ≤ o.2 := hc.1 o (by simp)
    by_cases h1 : v.2 < o.1
    · have hred : interInner v o [] = ([], o, []) := by
        simp [interInner, h1]
      rw [hred]
      refine ⟨⟨[], rfl, by simp⟩, ?_, by simp⟩
      intro x
      constructor
      · intro h; exact absurd h (memV_nil x)
      · rintro ⟨hx1, hx2, hm⟩
        exfalso
        rcases (memV_cons x o []).mp hm with ⟨ha, hb⟩ | hm'
        · omega
        · exact memV_nil x hm'
    · by_cases h2 : o.2 < v.1
      · have hred : interInner v o [] = ([], o, []) := by
          simp [interInner, h1, h2]
        rw [hred]
        refine ⟨⟨[], rfl, by simp⟩, ?_, by simp⟩
        intro x
        constructor
        · intro h; exact absurd h (memV_nil x)
        · rintro ⟨hx1, hx2, hm⟩
          exfalso
          rcases (memV_cons x o []).mp hm with ⟨ha, hb⟩ | hm'
          · omega
          · exact memV_nil x hm'
      · have hred : interInner v o [] = ([(max v.1 o.1, min v.2 o.2)], o, []) := by
          by_cases h3 : v.2 ≤ o.2 <;> simp [interInner, h1, h2, h3]
        rw [hred]
        refine ⟨⟨[], rfl, by simp⟩, ?_, ?_⟩
        · intro x
          rw [memV_pair]
          constructor
          · rintro ⟨ha, hb⟩
            exact ⟨by omega, by omega, (memV_cons x o []).mpr (Or.inl ⟨by omega, by omega⟩)⟩
          · rintro ⟨hx1, hx2, hm⟩
            rcases (memV_cons x o []).mp hm with ⟨ha, hb⟩ | hm'
            · exact ⟨by omega, by omega⟩
            · exact absurd hm' (memV_nil x)
        · intro p hp
          rcases List.mem_cons.mp hp with hp | hp
          · subst hp
            show max v.1 o.1 ≤ min v.2 o.2
            omega
          · exact absurd hp (List.not_mem_nil p)
  | cons o2 os2 ih =>
    intro o hc
    have ho : o.1 ≤ o.2 := hc.1 o (by simp)
    have hc2 : Canonical (o2 :: os2) := canonical_tail hc
    have hgapall : ∀ q ∈ (o2 :: os2), o.2 + 1 < q.1 := canon_gap hc
    by_cases h1 : v.2 < o.1
    · have hred : interInner v o (o2 :: os2) = ([], o, o2 :: os2) := by
        simp [interInner, h1]
      rw [hred]
      refine ⟨⟨[], rfl, by simp⟩, ?_, by simp⟩
      intro x
      constructor
      · intro h; exact absurd h (memV_nil x)
      · rintro ⟨hx1, hx2, hm⟩
        exfalso
        rcases (memV_cons x o (o2 :: os2)).mp hm with ⟨ha, hb⟩ | hm'
        · omega
        · simp only [memV] at hm'
          obtain ⟨q, hq, hq1, hq2⟩ := hm'
          have := hgapall q hq
          omega
    · by_cases h2 : o.2 < v.1
      · have hred : interInner v o (o2 :: os2) = interInner v o2 os2 := by
          conv_lhs => rw [interInner]
          simp [h1, h2]
        rw [hred]
        obtain ⟨⟨pre, hdec, hpre⟩, hmem, hle⟩ := ih o2 hc2
        refine ⟨⟨o :: pre, ?_, ?_⟩, ?_, hle⟩
        · rw [List.cons_append, ← hdec]
        · intro r hr
          rcases List.mem_cons.mp hr with hr | hr
          · subst hr; omega
          · exact hpre r hr
        · intro x
          rw [hmem x]
          constructor
          · rintro ⟨hx1, hx2, hm⟩
            exact ⟨hx1, hx2, (memV_cons x o (o2 :: os2)).mpr (Or.inr hm)⟩
          · rintro ⟨hx1, hx2, hm⟩
            rcases (memV_cons x o (o2 :: os2)).mp hm with ⟨ha, hb⟩ | hm'
            · exfalso; omega
            · exact ⟨hx1, hx2, hm'⟩
      · by_cases h3 : v.2 ≤ o.2
        · have hred : interInner v o (o2 :: os2)
              = ([(max v.1 o.1, min v.2 o.2)], o, o2 :: os2) := by
            simp [interInner, h1, h2, h3]
          rw [hred]
          refine ⟨⟨[], rfl, by simp⟩, ?_, ?_⟩
          · intro x
            rw [memV_pair]
            constructor
            · rintro ⟨ha, hb⟩
              exact ⟨by omega, by omega,
                (memV_cons x o (o2 :: os2)).mpr (Or.inl ⟨by omega, by omega⟩)⟩
            · rintro ⟨hx1, hx2, hm⟩
              rcases (memV_cons x o (o2 :: os2)).mp hm with ⟨ha, hb⟩ | hm'
              · exact ⟨by omega, by omega⟩
              · exfalso
                simp only [memV] at hm'
                obtain ⟨q, hq, hq1, hq2⟩ := hm'
                have := hgapall q hq
                omega
          · intro p hp
            rcases List.mem_cons.mp hp with hp | hp
            · subst hp
              show max v.1 o.1 ≤ min v.2 o.2
              omega
            · exact absurd hp (List.not_mem_nil p)
        · have hred : interInner v o (o2 :: os2)
              = ((max v.1 o.1, min v.2 o.2) :: (interInner v o2 os2).1,
                 (interInner v o2 os2).2) := by
            conv_lhs => rw [interInner]
            simp [h1, h2, h3]
          rw [hred]
          obtain ⟨⟨pre, hdec, hpre⟩, hmem, hle⟩ := ih o2 hc2
          refine ⟨⟨o :: pre, ?_, ?_⟩, ?_, ?_⟩
          · rw [List.cons_append, ← hdec]
          · intro r hr
            rcases List.mem_cons.mp hr with hr | hr
            · subst hr; omega
            · exact hpre r hr
          · intro x
            rw [memV_cons]
            constructor
            · rintro (⟨ha, hb⟩ | hm)
              · refine ⟨?_, ?_, (memV_cons x o (o2 :: os2)).mpr (Or.inl ⟨?_, ?_⟩)⟩ <;>
                · revert ha hb
                  show max v.1 o.1 ≤ x → x ≤ min v.2 o.2 → _
                  omega
              · obtain ⟨hx1, hx2, hm'⟩ := (hmem x).mp hm
                exact ⟨hx1, hx2, (memV_cons x o (o2 :: os2)).mpr (Or.inr hm')⟩
            · rintro ⟨hx1, hx2, hm⟩
              rcases (memV_cons x o (o2 :: os2)).mp hm with ⟨ha, hb⟩ | hm'
              · refine Or.inl ?_
                show max v.1 o.1 ≤ x ∧ x ≤ min v.2 o.2
                omega
              · exact Or.inr ((hmem x).mpr ⟨hx1, hx2, hm'⟩)
          · intro p hp
            rcases List.mem_cons.mp hp with hp | hp
            · subst hp
              show max v.1 o.1 ≤ min v.2 o.2
              omega
            · exact hle p hp

/-- Specification of the outer loop: on canonical inputs the sweep emits
exactly the common values, and only well-formed ranges. -/
theorem interAux_spec :
    ∀ (vs : List (Nat × Nat)) (o : Nat × Nat) (os : List (Nat × Nat)),
      Canonical vs → Canonical (o :: os) →
      (∀ x, memV x (interAux vs o os) ↔ (memV x vs ∧ memV x (o :: os))) ∧
      (∀ p ∈ interAux vs o os, p.1 ≤ p.2) := by
  intro vs
  induction vs with
  | nil =>
    intro o os _ _
    refine ⟨?_, by simp [interAux]⟩
    intro x
    simp only [interAux]
    exact ⟨fun h => absurd h (memV_nil x), fun ⟨h, _⟩ => absurd h (memV_nil x)⟩
  | cons v vs' ih =>
    intro o os hvs hc
    have hv : v.1 ≤ v.2 := hvs.1 v (by simp)
    have hvs' : Canonical vs' := canonical_tail hvs
    have hvgap : ∀ q ∈ vs', v.2 + 1 < q.1 := canon_gap hvs
    obtain ⟨⟨pre, hdec, hpre⟩, hmem, hle⟩ := interInner_spec v hv os o hc
    have hcursor : Canonical ((interInner v o os).2.1 :: (interInner v o os).2.2) :=
      canonical_suffix pre _ (hdec ▸ hc)
    obtain ⟨ihmem, ihle⟩ := ih (interInner v o os).2.1 (interInner v o os).2.2 hvs' hcursor
    have hredaux : interAux (v :: vs') o os
        = (interInner v o os).1 ++ interAux vs' (interInner v o os).2.1 (interInner v o os).2.2 := by
      simp [interAux]
    rw [hredaux]
    constructor
    · intro x
      rw [memV_append, hmem x, ihmem x]
      constructor
      · rintro (⟨hx1, hx2, hm⟩ | ⟨hm1, hm2⟩)
        · exact ⟨(memV_cons x v vs').mpr (Or.inl ⟨hx1, hx2⟩), hm⟩
        · refine ⟨(memV_cons x v vs').mpr (Or.inr hm1), ?_⟩
          rw [hdec, memV_append]
          exact Or.inr hm2
      · rintro ⟨hm0, hm⟩
        rcases (memV_cons x v vs').mp hm0 with ⟨hx1, hx2⟩ | hm1
        · exact Or.inl ⟨hx1, hx2, hm⟩
        · refine Or.inr ⟨hm1, ?_⟩
          rw [hdec, memV_append] at hm
          rcases hm with hm | hm
          · exfalso
            simp only [memV] at hm hm1
            obtain ⟨r, hr, hr1, hr2⟩ := hm
            obtain ⟨q, hq, hq1, hq2⟩ := hm1
            have h1 := hpre r hr
            have h2 := hvgap q hq
            omega
          · exact hm
    · intro p hp
      rcases List.mem_append.mp hp with hp | hp
      · exact hle p hp
      · exact ihle p hp

/-- First components are non-decreasing. -/
def Sorted1 (l : List (Nat × Nat)) : Prop :=
  l.Pairwise fun p q => p.1 ≤ q.1

theorem sortPairs_sorted1 (l : List (Nat × Nat)) : Sorted1 (sortPairs l) :=
  (List.sorted_insertionSort pairLe l).imp fun hab => by
    unfold pairLe at hab; omega

theorem sortPairs_perm (l : List (Nat × Nat)) : (sortPairs l).Perm l :=
  List.perm_insertionSort pairLe l

theorem memV_perm {l₁ l₂ : List (Nat × Nat)} (h : l₁.Perm l₂) (x : Nat) :
    memV x l₁ ↔ memV x l₂ := by
  simp only [memV]
  constructor <;> rintro ⟨p, hp, h1, h2⟩
  · exact ⟨p, h.mem_iff.mp hp, h1, h2⟩
  · exact ⟨p, h.mem_iff.mpr hp, h1, h2⟩

theorem normAux_memV (rest : List (Nat × Nat)) :
    ∀ l, Sorted1 (l :: rest) → ∀ x, memV x (normAux l rest) ↔ memV x (l :: rest) := by
  induction rest with
  | nil => intro l _ x; rw [show normAux l [] = [l] from rfl]
  | cons v rest ih =>
    intro l hs x
    have hsp := List.pairwise_cons.mp hs
    have hlv : l.1 ≤ v.1 := hsp.1 v (by simp)
    have hsp2 := List.pairwise_cons.mp hsp.2
    by_cases h : v.1 ≤ l.2 + 1
    · have hs' : Sorted1 ((l.1, max l.2 v.2) :: rest) := by
        refine List.pairwise_cons.mpr ⟨?_, hsp2.2⟩
        intro q hq
        exact le_trans hlv (hsp2.1 q hq)
      have hrec := ih (l.1, max l.2 v.2) hs' x
      rw [show normAux l (v :: rest) = normAux (l.1, max l.2 v.2) rest from by
        simp [normAux, h], hrec]
      constructor
      · intro hm
        rcases (memV_cons x _ rest).mp hm with ⟨ha, hb⟩ | hm'
        · by_cases hxl : x ≤ l.2
          · exact (memV_cons x l (v :: rest)).mpr (Or.inl ⟨ha, hxl⟩)
          · refine (memV_cons x l (v :: rest)).mpr (Or.inr
              ((memV_cons x v rest).mpr (Or.inl ⟨?_, ?_⟩)))
            · revert ha hb; show l.1 ≤ x → x ≤ max l.2 v.2 → _; omega
            · revert ha hb; show l.1 ≤ x → x ≤ max l.2 v.2 → _; omega
        · exact (memV_cons x l (v :: rest)).mpr (Or.inr
            ((memV_cons x v rest).mpr (Or.inr hm')))
      · intro hm
        rcases (memV_cons x l (v :: rest)).mp hm with ⟨ha, hb⟩ | hm'
        · exact (memV_cons x _ rest).mpr (Or.inl ⟨ha, by omega⟩)
        · rcases (memV_cons x v rest).mp hm' with ⟨ha, hb⟩ | hm''
          · refine (memV_cons x _ rest).mpr (Or.inl ⟨?_, ?_⟩)
            · show l.1 ≤ x; omega
            · show x ≤ max l.2 v.2; omega
          · exact (memV_cons x _ rest).mpr (Or.inr hm'')
    · have hrec := ih v hsp.2 x
      rw [show normAux l (v :: rest) = l :: normAux v rest from by simp [normAux, h]]
      constructor
      · intro hm
        rcases (memV_cons x l (normAux v rest)).mp hm with ⟨ha, hb⟩ | hm'
        · exact (memV_cons x l (v :: rest)).mpr (Or.inl ⟨ha, hb⟩)
        · exact (memV_cons x l (v :: rest)).mpr (Or.inr (hrec.mp hm'))
      · intro hm
        rcases (memV_cons x l (v :: rest)).mp hm with ⟨ha, hb⟩ | hm'
        · exact (memV_cons x l (normAux v rest)).mpr (Or.inl ⟨ha, hb⟩)
        · exact (memV_cons x l (normAux v rest)).mpr (Or.inr (hrec.mpr hm'))

theorem normalizeRanges_memV (l : List (Nat × Nat)) (hs : Sorted1 l) (x : Nat) :
    memV x (normalizeRanges l) ↔ memV x l := by
  cases l with
  | nil => rw [show normalizeRanges [] = [] from rfl]
  | cons v rest =>
    rw [show normalizeRanges (v :: rest) = normAux v rest from rfl]
    exact normAux_memV rest v hs x

theorem parseTokens_ranges (l : List (Nat × Nat)) (h : ∀ p ∈ l, p.1 ≤ p.2) :
    parseTokens (l.map fun p => Token.range p.1 p.2) = .ok l := by
  induction l with
  | nil => rfl
  | cons p t ih =>
    have hp := h p (by simp)
    have hcv : createValue (Token.range p.1 p.2) = .ok p := by
      simp [createValue, Nat.not_lt.mpr hp]
    simp [parseTokens, hcv, ih fun q hq => h q (List.mem_cons_of_mem p hq)]

theorem canon_min (p : Nat × Nat) (t : List (Nat × Nat)) (h : Canonical (p :: t)) :
    ∀ x, memV x (p :: t) → p.1 ≤ x := by
  intro x hm
  rcases (memV_cons x p t).mp hm with ⟨ha, _⟩ | hm'
  · exact ha
  · simp only [memV] at hm'
    obtain ⟨q, hq, hq1, _⟩ := hm'
    have h1 := canon_gap h q hq
    have h2 := h.1 p (by simp)
    omega

/-- Two canonical range lists with the same value set are equal. -/
theorem canon_ext : ∀ (l₁ l₂ : List (Nat × Nat)), Canonical l₁ → Canonical l₂ →
    (∀ x, memV x l₁ ↔ memV x l₂) → l₁ = l₂ := by
  intro l₁
  induction l₁ with
  | nil =>
    intro l₂ _ hc2 hext
    cases l₂ with
    | nil => rfl
    | cons q t =>
      exfalso
      have hm : memV q.1 (q :: t) :=
        (memV_cons _ _ _).mpr (Or.inl ⟨le_refl _, hc2.1 q (by simp)⟩)
      exact memV_nil q.1 ((hext q.1).mpr hm)
  | cons p t1 ih =>
    intro l₂ hc1 hc2 hext
    cases l₂ with
    | nil =>
      exfalso
      have hm : memV p.1 (p :: t1) :=
        (memV_cons _ _ _).mpr (Or.inl ⟨le_refl _, hc1.1 p (by simp)⟩)
      exact memV_nil p.1 ((hext p.1).mp hm)
    | cons q t2 =>
      have hp1 : p.1 ≤ p.2 := hc1.1 p (by simp)
      have hq1 : q.1 ≤ q.2 := hc2.1 q (by simp)
      have hmp : memV p.1 (q :: t2) :=
        (hext p.1).mp ((memV_cons _ _ _).mpr (Or.inl ⟨le_refl _, hp1⟩))
      have hmq : memV q.1 (p :: t1) :=
        (hext q.1).mpr ((memV_cons _ _ _).mpr (Or.inl ⟨le_refl _, hq1⟩))
      have hfst : p.1 = q.1 :=
        le_antisymm (canon_min p t1 hc1 q.1 hmq) (canon_min q t2 hc2 p.1 hmp)
      have hsnd : p.2 = q.2 := by
        by_contra hne
        rcases Nat.lt_or_ge p.2 q.2 with hlt | hge
        · have hy2 : memV (p.2 + 1) (q :: t2) :=
            (memV_cons _ _ _).mpr (Or.inl ⟨by omega, by omega⟩)
          have hy1 := (hext (p.2 + 1)).mpr hy2
          rcases (memV_cons _ _ _).mp hy1 with ⟨_, hb⟩ | hm'
          · omega
          · simp only [memV] at hm'
            obtain ⟨r, hr, hr1, hr2⟩ := hm'
            have := canon_gap hc1 r hr
            omega
        · have hlt' : q.2 < p.2 := by omega
          have hy1 : memV (q.2 + 1) (p :: t1) :=
            (memV_cons _ _ _).mpr (Or.inl ⟨by omega, by omega⟩)
          have hy2 := (hext (q.2 + 1)).mp hy1
          rcases (memV_cons _ _ _).mp hy2 with ⟨_, hb⟩ | hm'
          · omega
          · simp only [memV] at hm'
            obtain ⟨r, hr, hr1, hr2⟩ := hm'
            have := canon_gap hc2 r hr
            omega
      have htail : ∀ x, memV x t1 ↔ memV x t2 := by
        intro x
        by_cases hx : x ≤ p.2
        · constructor
          · intro hm
            exfalso
            simp only [memV] at hm
            obtain ⟨r, hr, hr1, hr2⟩ := hm
            have := canon_gap hc1 r hr
            omega
          · intro hm
            exfalso
            simp only [memV] at hm
            obtain ⟨r, hr, hr1, hr2⟩ := hm
            have := canon_gap hc2 r hr
            omega
        · constructor
          · intro hm
            have hmm := (hext x).mp ((memV_cons _ _ _).mpr (Or.inr hm))
            rcases (memV_cons _ _ _).mp hmm with ⟨ha, hb⟩ | h
            · exfalso; omega
            · exact h
          · intro hm
            have hmm := (hext x).mpr ((memV_cons _ _ _).mpr (Or.inr hm))
            rcases (memV_cons _ _ _).mp hmm with ⟨ha, hb⟩ | h
            · exfalso; omega
            · exact h
      rw [Prod.ext hfst hsnd, ih t2 (canonical_tail hc1) (canonical_tail hc2) htail]

/-- Dichotomy of `Label.intersect` on canonical same-type labels: either
there is no common value and `EmptyLabelSet` is raised, or the result is a
canonical non-empty label holding exactly the common values. -/
theorem intersect_cases (A B : Label) (hT : A.type_ = B.type_)
    (hA : CanonicalLabel A) (hB : CanonicalLabel B) :
    (A.intersect B = .error (.emptyLabelSet "Label intersection produced empty label set") ∧
      ∀ x, ¬ (memV x A.values ∧ memV x B.values)) ∨
    (∃ vs, A.intersect B = .ok ⟨A.type_, vs⟩ ∧ Canonical vs ∧ vs ≠ [] ∧
      (∀ x, memV x vs ↔ (memV x A.values ∧ memV x B.values))) := by
  obtain ⟨hcanB, hneB⟩ := hB
  cases hBv : B.values with
  | nil => exact absurd hBv hneB
  | cons o os =>
    rw [hBv] at hcanB
    obtain ⟨hmem, hle⟩ := interAux_spec A.values o os hA.1 hcanB
    have hcomp : A.intersect B =
        (if interAux A.values o os = [] then
          .error (.emptyLabelSet "Label intersection produced empty label set")
        else
          match _parseLabelValues ((interAux A.values o os).map fun p =>
              Token.range p.1 p.2) with
          | .ok vs => .ok ⟨A.type_, vs⟩
          | .error e => .error e) := by
      unfold Label.intersect
      rw [if_pos hT, hBv]
    by_cases hemp : interAux A.values o os = []
    · left
      refine ⟨by rw [hcomp, if_pos hemp], ?_⟩
      rintro x ⟨hxa, hxb⟩
      exact memV_nil x (hemp ▸ (hmem x).mpr ⟨hxa, hxb⟩)
    · right
      have hparse : _parseLabelValues ((interAux A.values o os).map fun p =>
          Token.range p.1 p.2) =
          .ok (normalizeRanges (sortPairs (interAux A.values o os))) := by
        unfold _parseLabelValues
        rw [parseTokens_ranges _ hle]
      refine ⟨normalizeRanges (sortPairs (interAux A.values o os)), ?_, ?_, ?_, ?_⟩
      · rw [hcomp, if_neg hemp, hparse]
      · refine normalizeRanges_canonical _ ?_
        intro p hp
        exact hle p ((List.perm_insertionSort pairLe _).mem_iff.mp hp)
      · refine normalizeRanges_ne_nil _ ?_
        intro hnil
        apply hemp
        have hlen := (sortPairs_perm (interAux A.values o os)).length_eq
        rw [hnil] at hlen
        exact List.length_eq_zero.mp hlen.symm
      · intro x
        rw [normalizeRanges_memV _ (sortPairs_sorted1 _) x,
          memV_perm (sortPairs_perm _) x, hmem x]

/-- C5: on canonical same-type labels, `Label.intersect` returns a canonical
label containing exactly the common integers — hence it is idempotent
(`A ∩ A = A`) and commutative under the source's label equality — and
raises `EmptyLabelSet` exactly when there is no common value. -/
theorem label_intersect_sound (A B : Label) (hT : A.type_ = B.type_)
    (hA : CanonicalLabel A) (hB : CanonicalLabel B) :
    (∀ L, A.intersect B = .ok L →
        CanonicalLabel L ∧ L.type_ = A.type_ ∧
        (∀ x, memV x L.values ↔ (memV x A.values ∧ memV x B.values))) ∧
    ((∃ m, A.intersect B = .error (.emptyLabelSet m)) ↔
        (∀ x, ¬ (memV x A.values ∧ memV x B.values))) ∧
    (A.intersect A = .ok A) ∧
    resultLabelEq (A.intersect B) (B.intersect A) := by
  refine ⟨?_, ?_, ?_, ?_⟩
  · intro L hok
    rcases intersect_cases A B hT hA hB with ⟨herr, _⟩ | ⟨vs, hres, hcan, hne, hm⟩
    · rw [herr] at hok; exact absurd hok (by simp)
    · rw [hres] at hok
      simp only [Except.ok.injEq] at hok
      subst hok
      exact ⟨⟨hcan, hne⟩, rfl, hm⟩
  · constructor
    · rintro ⟨m, herr⟩
      rcases intersect_cases A B hT hA hB with ⟨_, hnone⟩ | ⟨vs, hres, _, _, _⟩
      · exact hnone
      · rw [hres] at herr; exact absurd herr (by simp)
    · intro hnone
      rcases intersect_cases A B hT hA hB with ⟨herr, _⟩ | ⟨vs, hres, hcan, hne, hm⟩
      · exact ⟨_, herr⟩
      · exfalso
        cases hvs : vs with
        | nil => exact hne hvs
        | cons r t =>
          have hr : r.1 ≤ r.2 := hcan.1 r (by rw [hvs]; simp)
          have : memV r.1 vs := by
            rw [hvs]; exact (memV_cons _ _ _).mpr (Or.inl ⟨le_refl _, hr⟩)
          exact hnone r.1 ((hm r.1).mp this)
  · rcases intersect_cases A A rfl hA hA with ⟨herr, hnone⟩ | ⟨vs, hres, hcan, hne, hm⟩
    · exfalso
      obtain ⟨hcanA, hneA⟩ := hA
      cases hAv : A.values with
      | nil => exact hneA hAv
      | cons r t =>
        have hr : r.1 ≤ r.2 := hcanA.1 r (by rw [hAv]; simp)
        have hmm : memV r.1 A.values := by
          rw [hAv]; exact (memV_cons _ _ _).mpr (Or.inl ⟨le_refl _, hr⟩)
        exact hnone r.1 ⟨hmm, hmm⟩
    · have hvals : vs = A.values := by
        refine canon_ext vs A.values hcan hA.1 ?_
        intro x
        rw [hm x]
        exact ⟨fun h => h.1, fun h => ⟨h, h⟩⟩
      rw [hres, hvals]
  · have hcomm : ∀ x, (memV x A.values ∧ memV x B.values) ↔
        (memV x B.values ∧ memV x A.values) := fun x => And.comm
    rcases intersect_cases A B hT hA hB with ⟨herr, hnone⟩ | ⟨vs, hres, hcan, hne, hm⟩ <;>
      rcases intersect_cases B A hT.symm hB hA with ⟨herr', hnone'⟩ | ⟨vs', hres', hcan', hne', hm'⟩
    · rw [herr, herr']; rfl
    · exfalso
      cases hvs : vs' with
      | nil => exact hne' hvs
      | cons r t =>
        have hr : r.1 ≤ r.2 := hcan'.1 r (by rw [hvs]; simp)
        have hmm : memV r.1 vs' := by
          rw [hvs]; exact (memV_cons _ _ _).mpr (Or.inl ⟨le_refl _, hr⟩)
        have := (hm' r.1).mp hmm
        exact hnone r.1 ⟨this.2, this.1⟩
    · exfalso
      cases hvs : vs with
      | nil => exact hne hvs
      | cons r t =>
        have hr : r.1 ≤ r.2 := hcan.1 r (by rw [hvs]; simp)
        have hmm : memV r.1 vs := by
          rw [hvs]; exact (memV_cons _ _ _).mpr (Or.inl ⟨le_refl _, hr⟩)
        have := (hm r.1).mp hmm
        exact hnone' r.1 ⟨this.2, this.1⟩
    · rw [hres, hres']
      have hvv : vs = vs' := by
        refine canon_ext vs vs' hcan hcan' ?_
        intro x
        rw [hm x, hm' x]
        exact And.comm
      exact ⟨hT, by rw [hvv]⟩

/-- Witness for `label_intersect_sound` at concrete canonical labels. -/
theorem label_intersect_sound_witness :
    (∀ L, Label.intersect ⟨"vlan", [(100, 200)]⟩ ⟨"vlan", [(150, 250)]⟩ = .ok L →
        CanonicalLabel L ∧ L.type_ = "vlan" ∧
        (∀ x, memV x L.values ↔
          (memV x [(100, 200)] ∧ memV x [(150, 250)]))) ∧
    ((∃ m, Label.intersect ⟨"vlan", [(100, 200)]⟩ ⟨"vlan", [(150, 250)]⟩
        = .error (.emptyLabelSet m)) ↔
      (∀ x, ¬ (memV x [(100, 200)] ∧ memV x [(150, 250)]))) ∧
    (Label.intersect ⟨"vlan", [(100, 200)]⟩ ⟨"vlan", [(100, 200)]⟩
      = .ok ⟨"vlan", [(100, 200)]⟩) ∧
    resultLabelEq (Label.intersect ⟨"vlan", [(100, 200)]⟩ ⟨"vlan", [(150, 250)]⟩)
      (Label.intersect ⟨"vlan", [(150, 250)]⟩ ⟨"vlan", [(100, 200)]⟩) :=
  label_intersect_sound ⟨"vlan", [(100, 200)]⟩ ⟨"vlan", [(150, 250)]⟩ rfl
    (by constructor <;> simp [Canonical, CanonicalLabel])
    (by constructor <;> simp [Canonical, CanonicalLabel])

/-! ## STP / Link / Path (`opennsa/nsa.py`, lines 167-253) -/

/-- `STP` (lines 167-174): network, port, labels (`labels or []`). -/
structure STPdm where
  network : String
  port : String
  labels : List Label
  deriving DecidableEq, Repr

/-- `STP.__init__(self, network, port, labels=None)`: the constructor takes
three caller arguments. -/
def STPinit (network port : String) (labels : Option (List Label)) : STPdm :=
  ⟨network, port, labels.getD []⟩

/-- `Link` (lines 191-204): intra-network edge; source and destination
labels are both absent or both present (asserted in `__init__`). -/
structure LinkDm where
  network : String
  src_port : String
  dst_port : String
  src_labels : Option (List Label)
  dst_labels : Option (List Label)
  deriving DecidableEq, Repr

/-- `Link.sourceSTP` (lines 207-208) evaluates
`STP(self.network, self.src_port, None, self.src_labels)` — four positional
arguments to `STP.__init__(self, network, port, labels=None)`, which takes
at most three.  The call raises `TypeError` before any STP is built. -/
def LinkDm.sourceSTP (_l : LinkDm) : Except NsiError STPdm :=
  .error (.typeError "__init__() takes at most 4 arguments (5 given)")

/-- `Link.destSTP` (lines 211-212): same four-positional-argument call. -/
def LinkDm.destSTP (_l : LinkDm) : Except NsiError STPdm :=
  .error (.typeError "__init__() takes at most 4 arguments (5 given)")

/-- Modelled from the spec: `A Link derives a source STP and destination
STP on demand` — the STP the call was intended to build (the link's
network, source port and source labels). -/
def LinkDm.sourceSTPspec (l : LinkDm) : STPdm :=
  ⟨l.network, l.src_port, l.src_labels.getD []⟩

/-- Modelled from the spec: the intended destination STP. -/
def LinkDm.destSTPspec (l : LinkDm) : STPdm :=
  ⟨l.network, l.dst_port, l.dst_labels.getD []⟩

/-- `Path` (lines 232-249). -/
structure PathDm where
  network_links : List LinkDm
  deriving DecidableEq, Repr

/-- `Path.sourceEndpoint` (lines 244-245):
`self.network_links[0].sourceSTP()`; an empty list raises `IndexError`. -/
def PathDm.sourceEndpoint (p : PathDm) : Except NsiError STPdm :=
  match p.network_links.head? with
  | some l => l.sourceSTP
  | none => .error (.indexError "list index out of range")

/-- `Path.destEndpoint` (lines 248-249): `self.network_links[-1].destSTP()`. -/
def PathDm.destEndpoint (p : PathDm) : Except NsiError STPdm :=
  match p.network_links.getLast? with
  | some l => l.destSTP
  | none => .error (.indexError "list index out of range")

/-- Failing link for C7. -/
def cxLink : LinkDm := ⟨"netA", "pA", "pB", none, none⟩

/-- C7: `Link.sourceSTP`/`destSTP` raise `TypeError` instead of returning an
STP — `STP(...)` is called with one positional argument too many — so
`Path.sourceEndpoint`/`destEndpoint` on a non-empty path raise as well; the
spec-modelled derivations show the STPs the calls were meant to build. -/
theorem link_sourceSTP_raises :
    (∃ m, cxLink.sourceSTP = .error (.typeError m)) ∧
    (∃ m, cxLink.destSTP = .error (.typeError m)) ∧
    (∃ m, (PathDm.mk [cxLink]).sourceEndpoint = .error (.typeError m)) ∧
    (∃ m, (PathDm.mk [cxLink]).destEndpoint = .error (.typeError m)) ∧
    cxLink.sourceSTPspec = ⟨"netA", "pA", []⟩ ∧
    cxLink.destSTPspec = ⟨"netA", "pB", []⟩ :=
  ⟨⟨_, rfl⟩, ⟨_, rfl⟩, ⟨_, rfl⟩, ⟨_, rfl⟩, rfl, rfl⟩

/-! ## Requester callback surface
(`opennsa/protocols/nsi2/requesterservice.py`) -/

/-- The NSI action constants referenced from `bindings/actions.py` (that
file is not among the sources; per the spec §6 every operation has its own
action name, so the constants are modelled as distinct constructors). -/
inductive NsiAction where
  | reserveConfirmedA
  | reserveFailedA
  | reserveCommitConfirmedA
  | reserveCommitFailedA
  | reserveAbortConfirmedA
  | provisionConfirmedA
  | releaseConfirmedA
  | terminateConfirmedA
  | terminateFailedA
  | querySummaryConfirmedA
  | querySummaryFailedA
  | errorEventA
  | dataPlaneStateChangeA
  | reserveTimeoutA
  | messageDeliveryTimeoutA
  deriving DecidableEq, Repr

/-- The `registerDecoder` calls of `RequesterService.__init__` (lines
24-46), in source order.  No decoder is registered for the
`TERMINATE_FAILED` action, although the `terminateFailed` method exists
(lines 145-148). -/
def registeredActions : List NsiAction :=
  [.reserveConfirmedA, .reserveFailedA, .reserveCommitConfirmedA, .reserveCommitFailedA,
   .reserveAbortConfirmedA, .provisionConfirmedA, .releaseConfirmedA, .terminateConfirmedA,
   .querySummaryConfirmedA, .querySummaryFailedA,
   .errorEventA, .dataPlaneStateChangeA, .reserveTimeoutA, .messageDeliveryTimeoutA]

/-- The fifteen entry points the spec lists for the requester callback
surface (§4.5). -/
def listedEntryPoints : List NsiAction :=
  [.reserveConfirmedA, .reserveFailedA, .reserveCommitConfirmedA, .reserveCommitFailedA,
   .reserveAbortConfirmedA, .provisionConfirmedA, .releaseConfirmedA, .terminateConfirmedA,
   .terminateFailedA, .querySummaryConfirmedA, .querySummaryFailedA,
   .errorEventA, .dataPlaneStateChangeA, .reserveTimeoutA, .messageDeliveryTimeoutA]

/-- What each entry point does on a well-formed payload. -/
inductive HandlerBehavior where
  | acknowledges
  | raises (msg : String)
  deriving DecidableEq, Repr

/-- Every handler body ends in
`return helper.createGenericAcknowledgement(header)` except
`messageDeliveryTimeout` (lines 215-216), which raises
`NotImplementedError` unconditionally. -/
def handlerBehavior : NsiAction → HandlerBehavior
  | .messageDeliveryTimeoutA =>
    .raises "messageDeliveryTimeout not yet implemented in requester service"
  | _ => .acknowledges

/-- C8 counterexample: `terminateFailed` is a listed entry point but no
decoder is registered for its action, and the registered
`messageDeliveryTimeout` handler raises instead of acknowledging. -/
theorem terminateFailed_unregistered :
    NsiAction.terminateFailedA ∈ listedEntryPoints ∧
    NsiAction.terminateFailedA ∉ registeredActions ∧
    handlerBehavior .messageDeliveryTimeoutA ≠ .acknowledges := by
  decide

/-- C8 (amended): every listed entry point except `terminateFailed` has a
decoder registered at construction, and every listed entry point except
`messageDeliveryTimeout` returns a generic acknowledgement on a well-formed
payload; `terminateFailed` is never registered and `messageDeliveryTimeout`
raises `NotImplementedError`. -/
theorem requester_registration_amended :
    (listedEntryPoints.all fun ep =>
        decide (ep = .terminateFailedA) || decide (ep ∈ registeredActions)) = true ∧
    (listedEntryPoints.all fun ep =>
        decide (ep = .messageDeliveryTimeoutA) ||
          decide (handlerBehavior ep = .acknowledges)) = true ∧
    NsiAction.terminateFailedA ∉ registeredActions ∧
    (∃ m, handlerBehavior .messageDeliveryTimeoutA = .raises m) :=
  ⟨by decide, by decide, by decide, ⟨_, rfl⟩⟩

/-! ## Generated XML bindings
(`opennsa/protocols/nsi2/bindings/p2pservices.py`)

`ElementTree` elements are modelled as trees with a tag, attributes, an
optional text and children.  The `ServiceExceptionType` entry of the
source's `type_map` is omitted from the model: no claim concerns it, and
its `build` recurses through nested child exceptions. -/

/-- An `ElementTree` element. -/
inductive XmlNode where
  | mk (tag : String) (attrs : List (String × String)) (text : Option String)
       (children : List XmlNode)

def XmlNode.tag : XmlNode → String
  | .mk t _ _ _ => t

def XmlNode.attrs : XmlNode → List (String × String)
  | .mk _ a _ _ => a

def XmlNode.text : XmlNode → Option String
  | .mk _ _ t _ => t

def XmlNode.children : XmlNode → List XmlNode
  | .mk _ _ _ c => c

/-- `element.find(tag)`: the first child carrying the tag. -/
def XmlNode.find (e : XmlNode) (t : String) : Option XmlNode :=
  e.children.find? fun c => c.tag == t

/-- `element.findtext(tag)`: `None` when no such child exists, otherwise
the child's text with `''` standing in for a text-less element. -/
def XmlNode.findtext (e : XmlNode) (t : String) : Option String :=
  (e.find t).map fun c => c.text.getD ""

/-- `element.get(attr)`. -/
def XmlNode.get (e : XmlNode) (a : String) : Option String :=
  (e.attrs.find? fun p => p.1 == a).map Prod.snd

/-- The shapes `TypeValuePairType.value` takes: a list of strings when
constructed by callers (per the `# [ string ]` field comment), a plain
string or `None` when produced by `build`. -/
inductive PyStrs where
  | pynone
  | pystr (s : String)
  | pylist (l : List String)
  deriving DecidableEq, Repr

/-- The shapes `OrderedStpType.order` takes: an int when constructed by
callers (per the `# int` comment), an attribute string or `None` when
produced by `build`. -/
inductive PyScalar where
  | pynone
  | pyint (i : Int)
  | pystr (s : String)
  deriving DecidableEq, Repr

/-- Python `str(...)` of an `order` value (`str(None) == 'None'`). -/
def pyScalarStr : PyScalar → String
  | .pynone => "None"
  | .pyint i => toString i
  | .pystr s => s

/-- Python `str(...)` of an optional string attribute. -/
def pyStrOpt : Option String → String
  | none => "None"
  | some s => s

/-- `TypeValuePairType` (lines 63-82). -/
structure TypeValuePairType where
  type_ : Option String
  namespace_ : Option String
  value : PyStrs
  deriving DecidableEq, Repr

/-- `TypeValuePairType.xml` (lines 77-82): `type`/`namespace` attributes via
`str(...)`; one `<value>` subelement per element of `self.value` (iterating
a *string* value yields its characters). -/
def TypeValuePairType.xml (tvp : TypeValuePairType) (elementName : String) : XmlNode :=
  .mk elementName
    [("type", pyStrOpt tvp.type_), ("namespace", pyStrOpt tvp.namespace_)]
    none
    (match tvp.value with
     | .pynone => []
     | .pylist l => l.map fun el => .mk "value" [] (some el) []
     | .pystr s => s.toList.map fun c => .mk "value" [] (some (String.singleton c)) [])

/-- `TypeValuePairType.build` (lines 69-75): reads the attributes and —
deviating from the declared `# [ string ]` — only `findtext('value')`, the
text of the *first* `<value>` child, as a plain string. -/
def TypeValuePairType.build (e : XmlNode) : TypeValuePairType :=
  ⟨e.get "type", e.get "namespace",
   match e.findtext "value" with
   | some s => .pystr s
   | none => .pynone⟩

/-- `StpType` (lines 40-60). -/
structure StpType where
  networkId : Option String
  localId : Option String
  labels : Option (List TypeValuePairType)
  deriving DecidableEq, Repr

/-- `StpType.xml` (lines 54-60): each label is rendered by
`e.xml('labels')` into a single enclosing `<labels>` element. -/
def StpType.xml (s : StpType) (elementName : String) : XmlNode :=
  .mk elementName [] none
    ([.mk "networkId" [] s.networkId [], .mk "localId" [] s.localId []] ++
     (match s.labels with
      | none => []
      | some ls => [XmlNode.mk "labels" [] none (ls.map fun e => e.xml "labels")]))

/-- `StpType.build` (lines 47-52): iterating `element.find('labels')`
yields all its children, each built as a `TypeValuePairType`. -/
def StpType.build (e : XmlNode) : StpType :=
  ⟨e.findtext "networkId", e.findtext "localId",
   match e.find "labels" with
   | some le => some (le.children.map TypeValuePairType.build)
   | none => none⟩

/-- `OrderedStpType` (lines 171-186). -/
structure OrderedStpType where
  order : PyScalar
  stp : StpType
  deriving DecidableEq, Repr

/-- `OrderedStpType.xml` (lines 183-186): the `order` attribute is written
with `str(...)`. -/
def OrderedStpType.xml (o : OrderedStpType) (elementName : String) : XmlNode :=
  .mk elementName [("order", pyScalarStr o.order)] none [o.stp.xml "stp"]

/-- `OrderedStpType.build` (lines 177-181): reads the `order` *attribute
string* (deviating from the declared `# int`) and the nested `stp`; a
missing `<stp>` child makes `StpType.build(None)` fault. -/
def OrderedStpType.build (e : XmlNode) : Except NsiError OrderedStpType :=
  match e.find "stp" with
  | some se =>
    .ok ⟨(match e.get "order" with
          | some s => .pystr s
          | none => .pynone), StpType.build se⟩
  | none => .error (.typeError "StpType.build received NoneType")

/-- The numeric value of a decimal digit character. -/
def charDigit (c : Char) : Option Nat :=
  if 48 ≤ c.toNat ∧ c.toNat ≤ 57 then some (c.toNat - 48) else none

/-- Accumulate decimal digits; any non-digit fails. -/
def digitsVal : List Char → Nat → Option Nat
  | [], n => some n
  | c :: cs, n =>
    match charDigit c with
    | some d => digitsVal cs (n * 10 + d)
    | none => none

/-- `int(s)` for the decimal forms this model needs: optional leading `-`
and at least one digit. -/
def pyParseInt (s : String) : Option Int :=
  match s.toList with
  | [] => none
  | '-' :: [] => none
  | '-' :: c :: cs => (digitsVal (c :: cs) 0).map fun n => -(n : Int)
  | cs => (digitsVal cs 0).map fun n => (n : Int)

/-- `int(text)` on an optional string: `TypeError` on `None`, `ValueError`
on a non-numeral. -/
def pyInt : Option String → Except NsiError Int
  | none => .error (.typeError "int() argument must be a string or a number, not NoneType")
  | some s =>
    match pyParseInt s with
    | some i => .ok i
    | none => .error (.valueError ("invalid literal for int(): " ++ s))

/-- The `symmetricPath` parse shared by the service shapes:
`True if findtext == 'true' else False if find is not None else None`. -/
def parseSymmetricPath (e : XmlNode) : Option Bool :=
  if e.findtext "symmetricPath" = some "true" then some true
  else if (e.find "symmetricPath").isSome then some false
  else none

/-- `'true' if b else 'false'`. -/
def boolStr : Bool → String
  | true => "true"
  | false => "false"

/-- The `sourceSTP`/`destSTP` fields of the service builds:
`StpType.build(element.find(tag))`, faulting when the child is missing. -/
def buildStpField (e : XmlNode) (tag : String) : Except NsiError StpType :=
  match e.find tag with
  | some se => .ok (StpType.build se)
  | none => .error (.typeError "StpType.build received NoneType")

/-- The `ero` field of the service builds. -/
def buildEro (e : XmlNode) : Except NsiError (Option (List OrderedStpType)) :=
  match e.find "ero" with
  | none => .ok none
  | some ee =>
    match ee.children.mapM OrderedStpType.build with
    | .ok l => .ok (some l)
    | .error er => .error er

/-- An optional int field (`mtu`, `burstsize`). -/
def buildOptInt (e : XmlNode) (tag : String) : Except NsiError (Option Int) :=
  match e.find tag with
  | none => .ok none
  | some _ =>
    match pyInt (e.findtext tag) with
    | .ok i => .ok (some i)
    | .error er => .error er

/-- `P2PServiceBaseType` (lines 7-37). -/
structure P2PServiceBaseType where
  capacity : Int
  directionality : Option String
  symmetricPath : Option Bool
  sourceSTP : StpType
  destSTP : StpType
  ero : Option (List OrderedStpType)
  deriving DecidableEq, Repr

/-- `P2PServiceBaseType.xml` (lines 27-37). -/
def P2PServiceBaseType.xml (v : P2PServiceBaseType) (elementName : String) : XmlNode :=
  .mk elementName [] none
    ([XmlNode.mk "capacity" [] (some (toString v.capacity)) [],
      XmlNode.mk "directionality" [] v.directionality []] ++
     (match v.symmetricPath with
      | some b => [XmlNode.mk "symmetricPath" [] (some (boolStr b)) []]
      | none => []) ++
     [v.sourceSTP.xml "sourceSTP", v.destSTP.xml "destSTP"] ++
     (match v.ero with
      | some es => [XmlNode.mk "ero" [] none (es.map fun e => e.xml "ero")]
      | none => []))

/-- `P2PServiceBaseType.build` (lines 16-25). -/
def P2PServiceBaseType.build (e : XmlNode) : Except NsiError P2PServiceBaseType := do
  let capacity ← pyInt (e.findtext "capacity")
  let src ← buildStpField e "sourceSTP"
  let dst ← buildStpField e "destSTP"
  let ero ← buildEro e
  return ⟨capacity, e.findtext "directionality", parseSymmetricPath e, src, dst, ero⟩

/-- `EthernetBaseType` (lines 189-227). -/
structure EthernetBaseType where
  capacity : Int
  directionality : Option String
  symmetricPath : Option Bool
  sourceSTP : StpType
  destSTP : StpType
  ero : Option (List OrderedStpType)
  mtu : Option Int
  burstsize : Option Int
  deriving DecidableEq, Repr

/-- `EthernetBaseType.xml` (lines 213-227). -/
def EthernetBaseType.xml (v : EthernetBaseType) (elementName : String) : XmlNode :=
  .mk elementName [] none
    ([XmlNode.mk "capacity" [] (some (toString v.capacity)) [],
      XmlNode.mk "directionality" [] v.directionality []] ++
     (match v.symmetricPath with
      | some b => [XmlNode.mk "symmetricPath" [] (some (boolStr b)) []]
      | none => []) ++
     [v.sourceSTP.xml "sourceSTP", v.destSTP.xml "destSTP"] ++
     (match v.ero with
      | some es => [XmlNode.mk "ero" [] none (es.map fun e => e.xml "ero")]
      | none => []) ++
     (match v.mtu with
      | some m => [XmlNode.mk "mtu" [] (some (toString m)) []]
      | none => []) ++
     (match v.burstsize with
      | some b => [XmlNode.mk "burstsize" [] (some (toString b)) []]
      | none => []))

/-- `EthernetBaseType.build` (lines 200-211). -/
def EthernetBaseType.build (e : XmlNode) : Except NsiError EthernetBaseType := do
  let capacity ← pyInt (e.findtext "capacity")
  let src ← buildStpField e "sourceSTP"
  let dst ← buildStpField e "destSTP"
  let ero ← buildEro e
  let mtu ← buildOptInt e "mtu"
  let burstsize ← buildOptInt e "burstsize"
  return ⟨capacity, e.findtext "directionality", parseSymmetricPath e, src, dst, ero,
    mtu, burstsize⟩

/-- `EthernetVlanType` (lines 124-168). -/
structure EthernetVlanType where
  capacity : Int
  directionality : Option String
  symmetricPath : Option Bool
  sourceSTP : StpType
  destSTP : StpType
  ero : Option (List OrderedStpType)
  mtu : Option Int
  burstsize : Option Int
  sourceVLAN : Int
  destVLAN : Int
  deriving DecidableEq, Repr

/-- `EthernetVlanType.xml` (lines 152-168). -/
def EthernetVlanType.xml (v : EthernetVlanType) (elementName : String) : XmlNode :=
  .mk elementName [] none
    ([XmlNode.mk "capacity" [] (some (toString v.capacity)) [],
      XmlNode.mk "directionality" [] v.directionality []] ++
     (match v.symmetricPath with
      | some b => [XmlNode.mk "symmetricPath" [] (some (boolStr b)) []]
      | none => []) ++
     [v.sourceSTP.xml "sourceSTP", v.destSTP.xml "destSTP"] ++
     (match v.ero with
      | some es => [XmlNode.mk "ero" [] none (es.map fun e => e.xml "ero")]
      | none => []) ++
     (match v.mtu with
      | some m => [XmlNode.mk "mtu" [] (some (toString m)) []]
      | none => []) ++
     (match v.burstsize with
      | some b => [XmlNode.mk "burstsize" [] (some (toString b)) []]
      | none => []) ++
     [XmlNode.mk "sourceVLAN" [] (some (toString v.sourceVLAN)) [],
      XmlNode.mk "destVLAN" [] (some (toString v.destVLAN)) []])

/-- `EthernetVlanType.build` (lines 137-150). -/
def EthernetVlanType.build (e : XmlNode) : Except NsiError EthernetVlanType := do
  let capacity ← pyInt (e.findtext "capacity")
  let src ← buildStpField e "sourceSTP"
  let dst ← buildStpField e "destSTP"
  let ero ← buildEro e
  let mtu ← buildOptInt e "mtu"
  let burstsize ← buildOptInt e "burstsize"
  let svlan ← pyInt (e.findtext "sourceVLAN")
  let dvlan ← pyInt (e.findtext "destVLAN")
  return ⟨capacity, e.findtext "directionality", parseSymmetricPath e, src, dst, ero,
    mtu, burstsize, svlan, dvlan⟩

def p2pNamespace : String := "http://schemas.ogf.org/nsi/2013/07/services/point2point"

def typesNamespace : String := "http://schemas.ogf.org/nsi/2013/07/services/types"

/-- `ET.QName(ns, tag)` in its expanded form: an opening brace, the
namespace, a closing brace, the tag. -/
def qname (ns tag : String) : String := "\x7b" ++ ns ++ "\x7d" ++ tag

/-- The dispatch result of `parseElement`. -/
inductive ParsedElement where
  | p2ps (v : P2PServiceBaseType)
  | ets (v : EthernetBaseType)
  | evts (v : EthernetVlanType)
  | stp (v : StpType)
  deriving DecidableEq, Repr

/-- `parseElement` (lines 245-259): dispatch on the qualified tag through
`type_map` (the `serviceException` entry is omitted: no claim concerns
it). -/
def parseElement (e : XmlNode) : Except NsiError ParsedElement :=
  if e.tag = qname p2pNamespace "p2ps" then
    match P2PServiceBaseType.build e with
    | .ok v => .ok (.p2ps v)
    | .error er => .error er
  else if e.tag = qname p2pNamespace "ets" then
    match EthernetBaseType.build e with
    | .ok v => .ok (.ets v)
    | .error er => .error er
  else if e.tag = qname p2pNamespace "evts" then
    match EthernetVlanType.build e with
    | .ok v => .ok (.evts v)
    | .error er => .error er
  else if e.tag = qname typesNamespace "stp" then
    .ok (.stp (StpType.build e))
  else .error (.valueError ("No type mapping for tag " ++ e.tag))

/-- A VLAN label pair with its value list, as callers construct it. -/
def tvpVlan : TypeValuePairType :=
  ⟨some "vlan", some typesNamespace, .pylist ["1780"]⟩

/-- Source STP of the failing round-trip input. -/
def stpSrc : StpType := ⟨some "netA", some "portA", some [tvpVlan]⟩

/-- Destination STP of the failing round-trip input. -/
def stpDst : StpType := ⟨some "netA", some "portB", some [tvpVlan]⟩

/-- The failing round-trip input: a well-formed Ethernet-VLAN service
definition whose STPs carry a label list. -/
def evtsX : EthernetVlanType :=
  ⟨1000, some "Bidirectional", some true, stpSrc, stpDst, none, some 9000, some 1000,
   1780, 1780⟩

/-- C9: decoding the encoding is not the identity.  For `evtsX` the decoder
returns the label's `value` as the plain string `'1780'` (the first
`<value>` text) where the encoder was given the list `['1780']` — so
`decode(encode(x)) ≠ x` whenever a label carries a value list, and likewise
an ero entry's integer `order` comes back as an attribute string. -/
theorem evts_roundtrip_mismatch :
    parseElement (evtsX.xml (qname p2pNamespace "evts")) =
      .ok (.evts { evtsX with
        sourceSTP := { stpSrc with labels := some [{ tvpVlan with value := .pystr "1780" }] },
        destSTP := { stpDst with labels := some [{ tvpVlan with value := .pystr "1780" }] } }) ∧
    parseElement (evtsX.xml (qname p2pNamespace "evts")) ≠ .ok (.evts evtsX) ∧
    OrderedStpType.build ((OrderedStpType.mk (.pyint 1) stpSrc).xml "ero") ≠
      .ok (OrderedStpType.mk (.pyint 1) stpSrc) := by
  refine ⟨by decide, by decide, by decide⟩

end OpenNSA
